import Mathlib

/-!
# kube-consul-register, service controller

A shallow embedding of `controller/services/controller.go` and `utils/nodes.go`.

Conventions of the embedding:

* Go strings are Lean `String`s; library routines working on the text
  (`strings.Split`, `strings.TrimSpace`, `strings.Contains`, `strconv.ParseInt`,
  `strconv.ParseBool`, the `%d` verb) are written out over `List Char`.
* A Go `map[string]T` is an association list. A lookup returns the first binding of
  the key, an assignment overwrites the binding in place or appends a new one, and a
  `range` loop visits the bindings in list order.
* `int32` values are `Int`s. The only conversions in the source are `int(port)`
  and `int32(annotationPort)` after a successful 32-bit parse; neither can overflow.
* The cluster API client and the Consul adapter are not part of the embedded
  files. Their answers are fields of `Env`; calls to the adapter are appended to
  a log inside `World`.
* Logging and metrics are dropped.
-/

namespace KubeConsulRegister

/-! ## Library routines -/

/-- Decimal rendering of an integer, as produced by the `%d` verb of `fmt.Sprintf`. -/
def formatInt : Int → String
  | Int.ofNat m => Nat.repr m
  | Int.negSucc m => "-" ++ Nat.repr (m + 1)

/-- Map lookup `value, ok := m[key]`. -/
def mapGet {β : Type} (m : List (String × β)) (key : String) : Option β :=
  match m with
  | [] => none
  | (k, v) :: rest => if k = key then some v else mapGet rest key

/-- Map assignment `m[key] = value`. -/
def mapSet {β : Type} (m : List (String × β)) (key : String) (value : β) : List (String × β) :=
  match m with
  | [] => [(key, value)]
  | (k, v) :: rest => if k = key then (key, value) :: rest else (k, v) :: mapSet rest key value

/-- Pieces of `strings.Split(s, sep)` for a one-character separator, over the characters
of `s`. -/
def splitChar (sep : Char) : List Char → List (List Char)
  | [] => [[]]
  | c :: cs =>
    if c = sep then [] :: splitChar sep cs
    else
      match splitChar sep cs with
      | [] => [[c]]
      | p :: ps => (c :: p) :: ps

/-- Go `strings.Split(s, ",")`. -/
def stringsSplitComma (s : String) : List String :=
  (splitChar ',' s.data).map String.mk

/-- Go `unicode.IsSpace`. -/
def isSpace (c : Char) : Bool :=
  let n := c.toNat
  n = 0x09 || n = 0x0A || n = 0x0B || n = 0x0C || n = 0x0D || n = 0x20 || n = 0x85 || n = 0xA0
    || n = 0x1680 || (0x2000 ≤ n && n ≤ 0x200A) || n = 0x2028 || n = 0x2029 || n = 0x202F
    || n = 0x205F || n = 0x3000

/-- Go `strings.TrimSpace`. -/
def TrimSpace (s : String) : String :=
  String.mk ((s.data.dropWhile isSpace).reverse.dropWhile isSpace).reverse

/-- Go `strings.Contains(s, substr)` over characters. -/
def containsChars (s substr : List Char) : Bool :=
  match s with
  | [] => substr.isEmpty
  | c :: cs => substr.isPrefixOf (c :: cs) || containsChars cs substr

/-- Go `strings.Contains`. -/
def stringsContains (s substr : String) : Bool :=
  containsChars s.data substr.data

/-- Value of a decimal digit character, if it is one. -/
def digitValue (c : Char) : Option Nat :=
  if '0'.toNat ≤ c.toNat ∧ c.toNat ≤ '9'.toNat then some (c.toNat - '0'.toNat) else none

/-- Base-10 part of `strconv.ParseUint` without the range check: every character must
be a digit and there must be at least one. -/
def parseDigits : List Char → Option Nat
  | [] => none
  | cs => cs.foldl (fun acc c =>
      match acc, digitValue c with
      | some n, some d => some (n * 10 + d)
      | _, _ => none) (some 0)

/-- Go `strconv.ParseInt(s, 10, 32)`: optional sign, decimal digits, and the value has
to lie in the signed 32-bit range. -/
def ParseInt32 (s : String) : Except String Int :=
  match s.data with
  | [] => .error "strconv.ParseInt: invalid syntax"
  | c :: cs =>
    let neg := decide (c = '-')
    let body := if c = '+' ∨ c = '-' then cs else c :: cs
    match parseDigits body with
    | none => .error "strconv.ParseInt: invalid syntax"
    | some un =>
      if ¬ neg ∧ un ≥ 2147483648 then .error "strconv.ParseInt: value out of range"
      else if neg ∧ un > 2147483648 then .error "strconv.ParseInt: value out of range"
      else .ok (if neg then -(un : Int) else (un : Int))

/-- Go `strconv.ParseBool`. -/
def ParseBool (s : String) : Except String Bool :=
  if s = "1" ∨ s = "t" ∨ s = "T" ∨ s = "TRUE" ∨ s = "true" ∨ s = "True" then .ok true
  else if s = "0" ∨ s = "f" ∨ s = "F" ∨ s = "FALSE" ∨ s = "false" ∨ s = "False" then .ok false
  else .error "strconv.ParseBool: invalid syntax"

/-! ## Data model -/

def ConsulRegisterEnabledAnnotation : String := "consul.register/enabled"
def ConsulRegisterServiceNameAnnotation : String := "consul.register/service.name"
def ConsulRegisterServiceTags : String := "consul.register/service.tags"
def ConsulRegisterServiceHealthIntervalAnnotation : String := "consul.register/service.health.interval"
def ConsulRegisterServiceHealthTimeoutAnnotation : String := "consul.register/service.health.timeout"
def ConsulRegisterServiceHealthCheckPathAnnotation : String := "consul.register/service.health.path"
def ConsulRegisterServiceHealthHostAnnotation : String := "consul.register/service.health.host"
def ConsulRegisterServiceHealthPortAnnotation : String := "consul.register/service.health.port"
def ConsulRegisterServiceHealthTTLAnnotation : String := "consul.register/service.health.ttl"
def ConsulRegisterServiceHealthTCPAnnotation : String := "consul.register/service.health.tcp"

/-- Kubernetes `v1.ServiceTypeNodePort`. -/
def ServiceTypeNodePort : String := "NodePort"
/-- Kubernetes `v1.ServiceTypeClusterIP`. -/
def ServiceTypeClusterIP : String := "ClusterIP"
/-- Kubernetes `v1.ProtocolTCP`. -/
def ProtocolTCP : String := "TCP"
/-- Kubernetes `v1.NodeInternalIP`. -/
def NodeInternalIP : String := "InternalIP"
/-- Kubernetes `v1.NodeExternalIP`. -/
def NodeExternalIP : String := "ExternalIP"

/-- Kubernetes `v1.ServicePort`, the fields the controller reads. -/
structure ServicePort where
  Protocol : String
  NodePort : Int
  deriving DecidableEq, Repr

/-- Kubernetes `v1.Service`, the fields the controller reads. -/
structure Service where
  Name : String
  UID : String
  Annotations : List (String × String)
  Labels : List (String × String)
  Type_ : String
  ExternalIPs : List String
  Ports : List ServicePort
  deriving DecidableEq, Repr

/-- Kubernetes `v1.NodeAddress`. -/
structure NodeAddress where
  Type_ : String
  Address : String
  deriving DecidableEq, Repr

/-- Kubernetes `v1.Node`, the fields the controller reads. -/
structure Node where
  Name : String
  Addresses : List NodeAddress
  deriving DecidableEq, Repr

/-- Kubernetes `v1.Pod`, the field the controller reads. -/
structure Pod where
  HostIP : String
  deriving DecidableEq, Repr

/-- Consul `api.AgentServiceCheck`, the fields the controller writes. -/
structure AgentServiceCheck where
  Interval : String
  Timeout : String
  HTTP : String
  TCP : String
  TTL : String
  deriving DecidableEq, Repr

/-- Consul `api.AgentServiceRegistration`, the fields the controller writes. -/
structure AgentServiceRegistration where
  ID : String
  Name : String
  Tags : List String
  Port : Int
  Address : String
  Check : AgentServiceCheck
  deriving DecidableEq, Repr

/-- Consul `api.AgentService` as listed by an agent, the fields the controller reads. -/
structure AgentService where
  ID : String
  Tags : List String
  deriving DecidableEq, Repr

/-- Register modes of `config.Config`. -/
inductive RegisterMode where
  | single
  | node
  | pod
  | other
  deriving DecidableEq, Repr

/-- The fields of `config.Config` the controller reads. -/
structure Config where
  K8sTag : String
  RegisterMode : RegisterMode
  ConsulAddress : String
  ConsulNodeSelector : String
  PodLabelSelector : String
  deriving DecidableEq, Repr

/-! ## Entry builder -/

/-- Source `labelsToTags`; the list is the order in which the `range` loop visits the map. -/
def labelsToTags (labels : List (String × String)) : List String :=
  labels.foldl (fun tags kv =>
    if kv.2 = "tag" then tags ++ [kv.1] else tags ++ [kv.1 ++ ":" ++ kv.2]) []

/-- Source `Controller.createConsulService`. -/
def createConsulService (cfg : Config) (svc : Service) (address : String) (port : Int) :
    Except String AgentServiceRegistration :=
  let id := svc.Name ++ "-" ++ svc.UID ++ "-" ++ address ++ "-" ++ formatInt port
  let name :=
    match mapGet svc.Annotations ConsulRegisterServiceNameAnnotation with
    | some serviceName => serviceName
    | none => svc.Name
  let tags0 := [cfg.K8sTag] ++ ["uid:" ++ svc.UID]
  let tags1 :=
    match mapGet svc.Annotations ConsulRegisterServiceTags with
    | some value => (stringsSplitComma value).foldl (fun acc tag => acc ++ [TrimSpace tag]) tags0
    | none => tags0
  let tags := tags1 ++ labelsToTags svc.Labels
  let interval :=
    match mapGet svc.Annotations ConsulRegisterServiceHealthIntervalAnnotation with
    | some value => value ++ "s"
    | none => "10s"
  let timeout :=
    match mapGet svc.Annotations ConsulRegisterServiceHealthTimeoutAnnotation with
    | some value => value ++ "s"
    | none => "90s"
  let healthHost :=
    match mapGet svc.Annotations ConsulRegisterServiceHealthHostAnnotation with
    | some value => value
    | none => address
  let healthPortE : Except String Int :=
    match mapGet svc.Annotations ConsulRegisterServiceHealthPortAnnotation with
    | some value =>
      match ParseInt32 value with
      | .error err => .error err
      | .ok annotationPort => .ok annotationPort
    | none => .ok port
  match healthPortE with
  | .error err => .error err
  | .ok healthPort =>
    let check0 : AgentServiceCheck :=
      { Interval := interval, Timeout := timeout, HTTP := "", TCP := "", TTL := "" }
    let check :=
      match mapGet svc.Annotations ConsulRegisterServiceHealthCheckPathAnnotation with
      | some value =>
        { check0 with HTTP := "http" ++ "://" ++ healthHost ++ ":" ++ formatInt healthPort ++ value }
      | none =>
        match mapGet svc.Annotations ConsulRegisterServiceHealthTTLAnnotation with
        | some value => { check0 with TTL := value }
        | none =>
          match mapGet svc.Annotations ConsulRegisterServiceHealthTCPAnnotation with
          | some value =>
            if value ≠ "" then { check0 with TCP := healthHost ++ ":" ++ formatInt healthPort }
            else
              { check0 with HTTP := "http" ++ "://" ++ healthHost ++ ":" ++ formatInt healthPort ++ "/" }
          | none =>
            { check0 with HTTP := "http" ++ "://" ++ healthHost ++ ":" ++ formatInt healthPort ++ "/" }
    .ok { ID := id, Name := name, Tags := tags, Port := port, Address := address, Check := check }

/-- Source `isRegisterEnabled`. -/
def isRegisterEnabled (svc : Service) : Bool :=
  match mapGet svc.Annotations ConsulRegisterEnabledAnnotation with
  | some value =>
    match ParseBool value with
    | .error _ => false
    | .ok enabled => enabled
  | none => false

/-! ## Collaborators and state -/

/-- A Consul adapter, identified by the two arguments `New(cfg, name, podIP)` was given. -/
structure Agent where
  Name : String
  PodIP : String
  deriving DecidableEq, Repr

/-- A call to the Consul adapter. A `nil` adapter is `none`. -/
inductive Call where
  | register (agent : Agent) (service : AgentServiceRegistration)
  | deregister (agent : Option Agent) (id : String)
  deriving DecidableEq, Repr

/-- What the collaborators answer. `callOk n` tells whether the `n`-th adapter call of the
log (register or deregister) succeeds. `CheckK8sTag`, `GetConsulServiceTag` and `ParseIP`
stand for `utils.CheckK8sTag`, `utils.GetConsulServiceTag` and `net.ParseIP(..) != nil`,
whose sources are not among the embedded files. -/
structure Env where
  cfg : Config
  listNodes : String → Except String (List Node)
  listPods : String → Except String (List Pod)
  listServices : Except String (List Service)
  agentServices : Agent → Except String (List AgentService)
  callOk : Nat → Bool
  CheckK8sTag : List String → String → Bool
  GetConsulServiceTag : List String → String → String
  ParseIP : String → Bool

/-- Process state and registry. `allAddedServices` is the package variable of that name
(the dedup set), `registry` is the registry keyed by entry identity, `calls` the log of
adapter calls. The package variable `consulAgents` is assigned at the start of every pass
and only read within it, so it is passed along explicitly instead. -/
structure World where
  allAddedServices : List String
  registry : List (String × AgentServiceRegistration)
  calls : List Call
  deriving DecidableEq, Repr

/-- Go `allAddedServices[id] = true`. -/
def setAdd (s : List String) (id : String) : List String :=
  if id ∈ s then s else s ++ [id]

/-- Go `delete(allAddedServices, id)`. -/
def setDelete (s : List String) (id : String) : List String :=
  s.filter (fun x => x ≠ id)

/-- Modelled from the spec: `register(entry)` of the registry collaborator. The call is logged;
when it succeeds the registry holds the entry under its identity, overwriting an earlier one. -/
def adapterRegister (env : Env) (agent : Agent) (service : AgentServiceRegistration)
    (w : World) : Bool × World :=
  let ok := env.callOk w.calls.length
  (ok, { w with
    calls := w.calls ++ [Call.register agent service],
    registry := if ok then mapSet w.registry service.ID service else w.registry })

/-- Modelled from the spec: `deregister(identity)` of the registry collaborator. The call is
logged; when it succeeds the registry no longer holds an entry under that identity. -/
def adapterDeregister (env : Env) (agent : Option Agent) (id : String) (w : World) : Bool × World :=
  let ok := env.callOk w.calls.length
  (ok, { w with
    calls := w.calls ++ [Call.deregister agent id],
    registry := if ok then w.registry.filter (fun kv => kv.1 ≠ id) else w.registry })

/-- A loop whose body may return an error, which ends the loop. -/
def forEachErr {α : Type} (f : α → World → Option String × World) :
    List α → World → Option String × World
  | [], w => (none, w)
  | x :: xs, w =>
    match f x w with
    | (some err, w1) => (some err, w1)
    | (none, w1) => forEachErr f xs w1

/-! ## Agent resolver -/

/-- Source `utils.GetHostIP`. The `break` of the source leaves the `switch`, not the loop. -/
def GetHostIP (ParseIP : String → Bool) (node : Node) : String :=
  let hostIP := node.Name
  if ParseIP hostIP then hostIP
  else
    node.Addresses.foldl (fun hostIP address =>
      if address.Type_ = NodeInternalIP then address.Address else hostIP) hostIP

/-- Source `Controller.cacheConsulAgent`: the map and the error. -/
def cacheConsulAgent (env : Env) : List (String × Agent) × Option String :=
  match env.cfg.RegisterMode with
  | RegisterMode.single => (mapSet [] env.cfg.ConsulAddress { Name := "", PodIP := "" }, none)
  | RegisterMode.node =>
    match env.listNodes env.cfg.ConsulNodeSelector with
    | .error err => ([], some err)
    | .ok nodes =>
      (nodes.foldl (fun consulAgents node =>
        mapSet consulAgents node.Name { Name := GetHostIP env.ParseIP node, PodIP := "" }) [], none)
  | RegisterMode.pod =>
    match env.listPods env.cfg.PodLabelSelector with
    | .error err => ([], some err)
    | .ok pods =>
      (pods.foldl (fun consulAgents pod =>
        mapSet consulAgents pod.HostIP { Name := "", PodIP := pod.HostIP }) [], none)
  | RegisterMode.other => ([], none)

/-- Body of the inner loop of `getAddedConsulServices` for one listed service. -/
def addListedService (env : Env) (consulAgentID : String)
    (acc : List (String × String) × List (String × List String)) (service : AgentService) :
    List (String × String) × List (String × List String) :=
  if env.CheckK8sTag service.Tags env.cfg.K8sTag then
    let uid := env.GetConsulServiceTag service.Tags "uid"
    (mapSet acc.1 service.ID consulAgentID,
      match mapGet acc.2 uid with
      | some value => mapSet acc.2 uid (value ++ [service.ID])
      | none => mapSet acc.2 uid [service.ID])
  else acc

/-- Source `Controller.getAddedConsulServices`: identity to agent key, and uid to identities.
Its error result is always `nil`. -/
def getAddedConsulServices (env : Env) (consulAgents : List (String × Agent)) :
    List (String × String) × List (String × List String) :=
  consulAgents.foldl (fun acc agent =>
    match env.agentServices agent.2 with
    | .error _ => acc
    | .ok services => services.foldl (addListedService env agent.1) acc) ([], [])

/-! ## Single-workload register and deregister paths -/

/-- Source `Controller.getNodesIPs`. -/
def getNodesIPs (env : Env) : Except String (List String) :=
  let selector := if env.cfg.RegisterMode = RegisterMode.node then env.cfg.ConsulNodeSelector else ""
  match env.listNodes selector with
  | .error err => .error err
  | .ok nodes =>
    .ok (nodes.foldl (fun addresses node =>
      node.Addresses.foldl (fun addresses address =>
        if address.Type_ = NodeExternalIP then addresses ++ [address.Address]
        else if address.Type_ = NodeInternalIP then addresses ++ [address.Address]
        else addresses) addresses) [])

/-- The loop `for _, port := range Spec.Ports` of the register and deregister paths. -/
def tcpNodePorts (svc : Service) : List Int :=
  svc.Ports.foldl (fun ports port =>
    if port.Protocol = ProtocolTCP then ports ++ [port.NodePort] else ports) []

/-- Body of the inner loop of `eventAddFunc` for one address and one port. -/
def registerOne (env : Env) (svc : Service) (nodeAddress : String) (w : World) (port : Int) :
    World :=
  match createConsulService env.cfg svc nodeAddress port with
  | .error _ => w
  | .ok service =>
    if service.ID ∈ w.allAddedServices then w
    else
      match adapterRegister env { Name := nodeAddress, PodIP := "" } service w with
      | (false, w1) => w1
      | (true, w1) => { w1 with allAddedServices := setAdd w1.allAddedServices service.ID }

/-- The two nested loops of `eventAddFunc`. -/
def registerAll (env : Env) (svc : Service) (nodesIPs : List String) (ports : List Int)
    (w : World) : World :=
  nodesIPs.foldl (fun w nodeAddress => ports.foldl (registerOne env svc nodeAddress) w) w

/-- Source `Controller.eventAddFunc`: the error and the state it leaves. -/
def eventAddFunc (env : Env) (obj : Service) (w : World) : Option String × World :=
  if ¬ isRegisterEnabled obj then (none, w)
  else if obj.Type_ = ServiceTypeNodePort then
    match (if obj.ExternalIPs.length > 0 then .ok obj.ExternalIPs else getNodesIPs env) with
    | .error err => (some err, w)
    | .ok nodesIPs => (none, registerAll env obj nodesIPs (tcpNodePorts obj) w)
  else if obj.Type_ = ServiceTypeClusterIP then
    if obj.ExternalIPs.length > 0 then
      (none, registerAll env obj obj.ExternalIPs (tcpNodePorts obj) w)
    else (none, w)
  else (none, w)

/-- Body of the inner loop of `eventDeleteFunc` for one address and one port. -/
def deregisterOne (env : Env) (svc : Service) (nodeAddress : String) (w : World) (port : Int) :
    World :=
  match createConsulService env.cfg svc nodeAddress port with
  | .error _ => w
  | .ok service =>
    if service.ID ∉ w.allAddedServices then w
    else
      match adapterDeregister env (some { Name := nodeAddress, PodIP := "" }) service.ID w with
      | (false, w1) => w1
      | (true, w1) => { w1 with allAddedServices := setDelete w1.allAddedServices service.ID }

/-- The two nested loops of `eventDeleteFunc`. -/
def deregisterAll (env : Env) (svc : Service) (nodesIPs : List String) (ports : List Int)
    (w : World) : World :=
  nodesIPs.foldl (fun w nodeAddress => ports.foldl (deregisterOne env svc nodeAddress) w) w

/-- Source `Controller.eventDeleteFunc`: the error and the state it leaves. -/
def eventDeleteFunc (env : Env) (obj : Service) (w : World) : Option String × World :=
  if obj.Type_ = ServiceTypeNodePort then
    match (if obj.ExternalIPs.length > 0 then .ok obj.ExternalIPs else getNodesIPs env) with
    | .error err => (some err, w)
    | .ok nodesIPs => (none, deregisterAll env obj nodesIPs (tcpNodePorts obj) w)
  else (none, w)

/-! ## Reconciliation passes -/

/-- Body of the inner loop of `Clean` for one identity. -/
def deregisterListed (env : Env) (consulAgents : List (String × Agent))
    (addedConsulServices : List (String × String)) (w : World) (serviceID : String) : World :=
  let consulAgent := mapGet consulAgents ((mapGet addedConsulServices serviceID).getD "")
  match adapterDeregister env consulAgent serviceID w with
  | (false, w1) => w1
  | (true, w1) => { w1 with allAddedServices := setDelete w1.allAddedServices serviceID }

/-- The map `currentAddedServices` of `Clean`: uid to name of every enabled workload. -/
def currentAddedServices (allServices : List Service) : List (String × String) :=
  allServices.foldl (fun current service =>
    if ¬ isRegisterEnabled service then current
    else mapSet current service.UID service.Name) []

/-- Source `Controller.Clean`: the error and the state it leaves. -/
def Clean (env : Env) (w : World) : Option String × World :=
  match cacheConsulAgent env with
  | (_, some err) => (some ("Can't cache Consul' Agents: " ++ err), w)
  | (consulAgents, none) =>
    let (addedConsulServices, registeredConsulServices) := getAddedConsulServices env consulAgents
    match env.listServices with
    | .error err => (some err, w)
    | .ok allServices =>
      let current := currentAddedServices allServices
      (none, registeredConsulServices.foldl (fun w entry =>
        match mapGet current entry.1 with
        | some _ => w
        | none => entry.2.foldl (deregisterListed env consulAgents addedConsulServices) w) w)

/-- Body of the loop of `Sync` for one workload. -/
def syncService (env : Env) (addedConsulServices : List (String × String))
    (registeredConsulServices : List (String × List String)) (service : Service) (w : World) :
    Option String × World :=
  if ¬ isRegisterEnabled service then (none, w)
  else
    match mapGet registeredConsulServices service.UID with
    | some consulServices =>
      forEachErr (fun serviceConsulID w =>
        match mapGet addedConsulServices serviceConsulID with
        | some _ => (none, w)
        | none => eventAddFunc env service w) consulServices w
    | none => eventAddFunc env service w

/-- Source `Controller.Sync`: the error and the state it leaves. -/
def Sync (env : Env) (w : World) : Option String × World :=
  match cacheConsulAgent env with
  | (_, some err) => (some ("Can't cache Consul' Agents: " ++ err), w)
  | (consulAgents, none) =>
    let (addedConsulServices, registeredConsulServices) := getAddedConsulServices env consulAgents
    match env.listServices with
    | .error err => (some err, w)
    | .ok allServices =>
      forEachErr (syncService env addedConsulServices registeredConsulServices) allServices w

/-- The loops of `nodeDelete` over the listed identities and the addresses of the node. -/
def nodeDeleteLoop (env : Env) (consulAgents : List (String × Agent))
    (addedConsulServices : List (String × String)) (node : Node) (w : World) : World :=
  addedConsulServices.foldl (fun w entry =>
    node.Addresses.foldl (fun w address =>
      if stringsContains entry.1 ("-" ++ address.Address ++ "-") then
        match adapterDeregister env (mapGet consulAgents entry.2) entry.1 w with
        | (false, w1) => w1
        | (true, w1) => { w1 with allAddedServices := setDelete w1.allAddedServices entry.1 }
      else w) w) w

/-- Source `Controller.nodeDelete`: the error and the state it leaves. -/
def nodeDelete (env : Env) (node : Node) (w : World) : Option String × World :=
  let w0 := { w with allAddedServices := [] }
  match cacheConsulAgent env with
  | (_, some err) => (some ("Can't cache Consul' Agents: " ++ err), w0)
  | (consulAgents, none) =>
    let (addedConsulServices, _) := getAddedConsulServices env consulAgents
    (none, nodeDeleteLoop env consulAgents addedConsulServices node w0)

/-! ## Notions used to state the properties -/

/-- The tag a label contributes: `key:value`, or the bare key when the value is `tag`. -/
def labelTag (kv : String × String) : String :=
  if kv.2 = "tag" then kv.1 else kv.1 ++ ":" ++ kv.2

/-- The tags the `service.tags` annotation contributes: its comma-separated pieces, trimmed. -/
def annotationTags (svc : Service) : List String :=
  match mapGet svc.Annotations ConsulRegisterServiceTags with
  | some value => (stringsSplitComma value).map TrimSpace
  | none => []

/-- The health host: the `health.host` annotation if present, else the target address. -/
def healthHostOf (svc : Service) (address : String) : String :=
  match mapGet svc.Annotations ConsulRegisterServiceHealthHostAnnotation with
  | some value => value
  | none => address

/-- The health port is the parsed `health.port` annotation if present, else the target port. -/
def IsHealthPort (svc : Service) (port healthPort : Int) : Prop :=
  match mapGet svc.Annotations ConsulRegisterServiceHealthPortAnnotation with
  | some value => ParseInt32 value = .ok healthPort
  | none => healthPort = port

/-- The workload is not eligible for registration: the `enabled` annotation is missing, does
not parse as a boolean or parses as false; or the workload is not of the node-port type and
has no explicit external addresses. -/
def Ineligible (svc : Service) : Prop :=
  mapGet svc.Annotations ConsulRegisterEnabledAnnotation = none
    ∨ (∃ value, mapGet svc.Annotations ConsulRegisterEnabledAnnotation = some value
        ∧ ((∃ err, ParseBool value = .error err) ∨ ParseBool value = .ok false))
    ∨ (svc.Type_ ≠ ServiceTypeNodePort ∧ svc.ExternalIPs = [])

/-- Modelled from the spec: `utils.CheckK8sTag`, whose source is not among the embedded
files: the entry bears the ownership tag. -/
def CheckK8sTag (tags : List String) (tag : String) : Bool :=
  decide (tag ∈ tags)

/-- Modelled from the spec: `utils.GetConsulServiceTag`, whose source is not among the embedded
files: the text after `name:` in the first tag of that form, the empty string if there is
none. -/
def GetConsulServiceTag (tags : List String) (name : String) : String :=
  match tags.find? (fun t => (name ++ ":").data.isPrefixOf t.data) with
  | some t => String.mk (t.data.drop ((name ++ ":").data.length))
  | none => ""

/-- A recogniser of dotted-quad IPv4 literals, used as `ParseIP` in the examples. -/
def exampleParseIP (s : String) : Bool :=
  match (splitChar '.' s.data).map parseDigits with
  | [some a, some b, some c, some d] => decide (a ≤ 255 ∧ b ≤ 255 ∧ c ≤ 255 ∧ d ≤ 255)
  | _ => false

/-- The addresses the loops of the register path run over for this workload: none when the
path returns before its loops. -/
def registerAddresses (env : Env) (svc : Service) : List String :=
  if ¬ isRegisterEnabled svc then []
  else if svc.Type_ = ServiceTypeNodePort then
    if svc.ExternalIPs.length > 0 then svc.ExternalIPs
    else
      match getNodesIPs env with
      | .ok nodesIPs => nodesIPs
      | .error _ => []
  else if svc.Type_ = ServiceTypeClusterIP then svc.ExternalIPs
  else []

/-- The owned entries the agents list, each with the key and the agent that listed it:
every agent whose listing succeeds, in order, and of its services those that bear the
ownership tag. -/
def ownedListing (env : Env) (consulAgents : List (String × Agent)) :
    List (String × Agent × AgentService) :=
  consulAgents.flatMap (fun agent =>
    match env.agentServices agent.2 with
    | .error _ => []
    | .ok services =>
      (services.filter (fun s => env.CheckK8sTag s.Tags env.cfg.K8sTag)).map
        (fun s => (agent.1, agent.2, s)))

/-- The uid tag of a listed entry. -/
def uidOf (env : Env) (x : String × Agent × AgentService) : String :=
  env.GetConsulServiceTag x.2.2.Tags "uid"

/-- What `getAddedConsulServices` does with one owned entry. -/
def collectStep (env : Env) (acc : List (String × String) × List (String × List String))
    (x : String × Agent × AgentService) :
    List (String × String) × List (String × List String) :=
  (mapSet acc.1 x.2.2.ID x.1,
    mapSet acc.2 (uidOf env x) ((mapGet acc.2 (uidOf env x)).getD [] ++ [x.2.2.ID]))

/-- The deregister calls of the loops of `Clean`, in order. -/
def cleanCalls (consulAgents : List (String × Agent))
    (addedConsulServices : List (String × String))
    (registeredConsulServices : List (String × List String))
    (current : List (String × String)) : List Call :=
  registeredConsulServices.flatMap (fun entry =>
    match mapGet current entry.1 with
    | some _ => []
    | none => entry.2.map (fun serviceID =>
        Call.deregister (mapGet consulAgents ((mapGet addedConsulServices serviceID).getD ""))
          serviceID))

/-- The deregister calls of the loops of `nodeDelete`, in order. -/
def nodeDeleteCalls (consulAgents : List (String × Agent))
    (addedConsulServices : List (String × String)) (node : Node) : List Call :=
  addedConsulServices.flatMap (fun entry =>
    (node.Addresses.filter (fun address =>
      stringsContains entry.1 ("-" ++ address.Address ++ "-"))).map
        (fun _ => Call.deregister (mapGet consulAgents entry.2) entry.1))

/-- The workload is enabled and its uid is the uid tag of no listed owned entry. -/
def needsRegistration (env : Env) (consulAgents : List (String × Agent)) (svc : Service) :
    Bool :=
  isRegisterEnabled svc
    && (ownedListing env consulAgents).all (fun x => decide (uidOf env x ≠ svc.UID))

/-- The number a text of decimal digits denotes. -/
def decimalValue (digits : List Char) : Nat :=
  digits.foldl (fun n c => n * 10 + (c.toNat - '0'.toNat)) 0

/-- The text is a base-10 integer in the signed 32-bit range and `n` is its value: an
optional sign, then at least one decimal digit, and nothing else. -/
def IsInt32Text (s : String) (n : Int) : Prop :=
  ∃ digits : List Char, digits ≠ []
    ∧ (∀ c ∈ digits, '0'.toNat ≤ c.toNat ∧ c.toNat ≤ '9'.toNat)
    ∧ ((s.data = digits ∧ n = (decimalValue digits : Int))
        ∨ (s.data = '+' :: digits ∧ n = (decimalValue digits : Int))
        ∨ (s.data = '-' :: digits ∧ n = -(decimalValue digits : Int)))
    ∧ -2147483648 ≤ n ∧ n ≤ 2147483647

/-! ## Example data -/

def exampleCfg : Config :=
  { K8sTag := "kubernetes", RegisterMode := RegisterMode.single, ConsulAddress := "localhost",
    ConsulNodeSelector := "", PodLabelSelector := "" }

/-- The workload of the example of the specification. -/
def exampleWeb : Service :=
  { Name := "web", UID := "abc123",
    Annotations := [("consul.register/enabled", "true")], Labels := [],
    Type_ := "NodePort", ExternalIPs := [], Ports := [{ Protocol := "TCP", NodePort := 30080 }] }

def exampleWebEntry : AgentServiceRegistration :=
  { ID := "web-abc123-10.0.0.5-30080", Name := "web", Tags := ["kubernetes", "uid:abc123"],
    Port := 30080, Address := "10.0.0.5",
    Check := { Interval := "10s", Timeout := "90s", HTTP := "http://10.0.0.5:30080/",
               TCP := "", TTL := "" } }

/-- A workload with tags, labels and every health annotation set. -/
def exampleApi : Service :=
  { Name := "api", UID := "u-7",
    Annotations := [
      ("consul.register/enabled", "true"),
      ("consul.register/service.tags", "blue, v2 ,,edge"),
      ("consul.register/service.health.path", "/healthz"),
      ("consul.register/service.health.ttl", "30s"),
      ("consul.register/service.health.tcp", "yes"),
      ("consul.register/service.health.host", "probe.local"),
      ("consul.register/service.health.port", "+8080")],
    Labels := [("tier", "backend"), ("canary", "tag")],
    Type_ := "NodePort", ExternalIPs := ["192.0.2.7"],
    Ports := [{ Protocol := "TCP", NodePort := 31000 }] }

def exampleApiEntry : AgentServiceRegistration :=
  { ID := "api-u-7-192.0.2.7-31000", Name := "api",
    Tags := ["kubernetes", "uid:u-7", "blue", "v2", "", "edge", "tier:backend", "canary"],
    Port := 31000, Address := "192.0.2.7",
    Check := { Interval := "10s", Timeout := "90s", HTTP := "http://probe.local:8080/healthz",
               TCP := "", TTL := "" } }

/-- A node with one internal address, as in the example of the specification. -/
def exampleNode : Node :=
  { Name := "node-1", Addresses := [{ Type_ := "Hostname", Address := "node-1" },
                                    { Type_ := "InternalIP", Address := "10.0.0.5" }] }

/-- A cluster with `exampleNode` and `exampleWeb`, one agent with an empty listing, and an
adapter whose calls all succeed. -/
def exampleEnv : Env :=
  { cfg := exampleCfg,
    listNodes := fun _ => .ok [exampleNode],
    listPods := fun _ => .ok [],
    listServices := .ok [exampleWeb],
    agentServices := fun _ => .ok [],
    callOk := fun _ => true,
    CheckK8sTag := CheckK8sTag,
    GetConsulServiceTag := GetConsulServiceTag,
    ParseIP := exampleParseIP }

def emptyWorld : World :=
  { allAddedServices := [], registry := [], calls := [] }

/-- A cluster-IP workload without external addresses. -/
def exampleInternal : Service :=
  { Name := "cache", UID := "u-3", Annotations := [("consul.register/enabled", "true")],
    Labels := [], Type_ := "ClusterIP", ExternalIPs := [],
    Ports := [{ Protocol := "TCP", NodePort := 0 }] }

/-- A workload whose `enabled` annotation does not parse as a boolean. -/
def exampleMisspelt : Service :=
  { exampleWeb with Annotations := [("consul.register/enabled", "yes")] }

/-- A cluster-IP workload with an explicit external address. -/
def exampleExternal : Service :=
  { Name := "db", UID := "u-9", Annotations := [("consul.register/enabled", "true")],
    Labels := [], Type_ := "ClusterIP", ExternalIPs := ["192.0.2.9"],
    Ports := [{ Protocol := "TCP", NodePort := 0 }] }

/-- A node that reports two internal addresses. -/
def exampleDualNode : Node :=
  { Name := "node-a", Addresses := [{ Type_ := "InternalIP", Address := "10.0.0.1" },
                                    { Type_ := "Hostname", Address := "node-a" },
                                    { Type_ := "InternalIP", Address := "10.0.0.2" }] }

/-- A state whose dedup set holds the identity of the example while the registry is empty. -/
def staleWorld : World :=
  { allAddedServices := ["web-abc123-10.0.0.5-30080"], registry := [], calls := [] }

/-- As `exampleEnv`, with an agent that lists an entry of `exampleWeb`, an entry of a workload
that is gone and an entry that does not bear the ownership tag. -/
def cleanEnv : Env :=
  { exampleEnv with
    agentServices := fun _ => .ok [
      { ID := "web-abc123-10.0.0.5-30080", Tags := ["kubernetes", "uid:abc123"] },
      { ID := "old-u-0-10.0.0.5-30080", Tags := ["kubernetes", "uid:u-0"] },
      { ID := "postgres", Tags := ["primary"] }] }

/-- An enabled workload named `api-v2` with uid `u1`. -/
def exampleApiV2 : Service :=
  { Name := "api-v2", UID := "u1", Annotations := [("consul.register/enabled", "true")],
    Labels := [], Type_ := "NodePort", ExternalIPs := ["192.0.2.7"],
    Ports := [{ Protocol := "TCP", NodePort := 80 }] }

/-- Two nodes with one agent each, in node mode. Both agents list the identity
`api-v2-u1-192.0.2.7-80`: the first with the uid tag `v2-u1` (a workload `api` that is gone),
the second with the uid tag `u1` (the workload `api-v2`). -/
def sharedEnv : Env :=
  { cfg := { exampleCfg with RegisterMode := RegisterMode.node },
    listNodes := fun _ => .ok [
      { Name := "node-1", Addresses := [{ Type_ := "InternalIP", Address := "10.0.0.5" }] },
      { Name := "node-2", Addresses := [{ Type_ := "InternalIP", Address := "10.0.0.6" }] }],
    listPods := fun _ => .ok [],
    listServices := .ok [exampleApiV2],
    agentServices := fun agent =>
      if agent.Name = "10.0.0.5" then
        .ok [{ ID := "api-v2-u1-192.0.2.7-80", Tags := ["kubernetes", "uid:v2-u1"] }]
      else .ok [{ ID := "api-v2-u1-192.0.2.7-80", Tags := ["kubernetes", "uid:u1"] }],
    callOk := fun _ => true,
    CheckK8sTag := CheckK8sTag,
    GetConsulServiceTag := GetConsulServiceTag,
    ParseIP := exampleParseIP }

/-- An enabled workload named `queue-worker-api`. -/
def exampleQueue : Service :=
  { Name := "queue-worker-api", UID := "u1",
    Annotations := [("consul.register/enabled", "true")], Labels := [], Type_ := "NodePort",
    ExternalIPs := [], Ports := [{ Protocol := "TCP", NodePort := 80 }] }

/-- As `exampleEnv`, with an agent that lists the entry of `exampleWeb` at `10.0.0.5` and
the entry of `exampleQueue` at `10.0.0.2`. -/
def scopeEnv : Env :=
  { exampleEnv with
    listServices := .ok [exampleWeb, exampleQueue],
    agentServices := fun _ => .ok [
      { ID := "web-abc123-10.0.0.5-30080", Tags := ["kubernetes", "uid:abc123"] },
      { ID := "queue-worker-api-u1-10.0.0.2-80", Tags := ["kubernetes", "uid:u1"] }] }

/-- A node named `worker` that reports its host name and one internal address. -/
def exampleWorkerNode : Node :=
  { Name := "worker", Addresses := [{ Type_ := "Hostname", Address := "worker" },
                                    { Type_ := "InternalIP", Address := "10.0.0.1" }] }

/-- A workload whose `health.ttl` annotation is present with an empty value. -/
def exampleEmptyTTL : Service :=
  { exampleWeb with
    Annotations := [("consul.register/enabled", "true"),
                    ("consul.register/service.health.ttl", "")] }

/-- A workload whose `health.port` annotation is not a number. -/
def exampleBadPort : Service :=
  { exampleWeb with
    Annotations := [("consul.register/enabled", "true"),
                    ("consul.register/service.health.port", "http")] }

/-- A workload with a `health.host` annotation and no path, TTL or TCP annotation. -/
def exampleProbeHost : Service :=
  { exampleWeb with
    Annotations := [("consul.register/enabled", "true"),
                    ("consul.register/service.health.host", "probe.local")] }

def exampleProbeHostEntry : AgentServiceRegistration :=
  { exampleWebEntry with
    Check := { Interval := "10s", Timeout := "90s", HTTP := "http://probe.local:30080/",
               TCP := "", TTL := "" } }

/-- A workload with interval and timeout annotations and an empty `health.tcp` annotation. -/
def exampleTimed : Service :=
  { exampleWeb with
    Annotations := [("consul.register/enabled", "true"),
                    ("consul.register/service.health.interval", "30"),
                    ("consul.register/service.health.timeout", "5"),
                    ("consul.register/service.health.tcp", "")] }

def exampleTimedEntry : AgentServiceRegistration :=
  { exampleWebEntry with
    Check := { Interval := "30s", Timeout := "5s", HTTP := "http://10.0.0.5:30080/",
               TCP := "", TTL := "" } }

/-! ## Properties -/

/-! ### Library routines, characterised -/

theorem splitChar_ne_nil (sep : Char) (cs : List Char) : splitChar sep cs ≠ [] := by
  cases cs with
  | nil => simp [splitChar]
  | cons c cs =>
    unfold splitChar
    split
    · simp
    · split <;> simp

/-- Joining the pieces of `splitChar` with the separator gives the text back. -/
theorem splitChar_intercalate (sep : Char) (cs : List Char) :
    List.intercalate [sep] (splitChar sep cs) = cs := by
  induction cs with
  | nil => simp [splitChar, List.intercalate, List.intersperse]
  | cons c cs ih =>
    unfold splitChar
    by_cases hc : c = sep
    · simp only [hc, if_true]
      cases hrest : splitChar sep cs with
      | nil => exact absurd hrest (splitChar_ne_nil sep cs)
      | cons p ps =>
        rw [hrest] at ih
        simp only [List.intercalate, List.intersperse, List.flatten_cons, List.nil_append,
          List.singleton_append, List.cons.injEq, true_and] at ih ⊢
        exact ih
    · simp only [hc, if_false]
      cases hrest : splitChar sep cs with
      | nil => exact absurd hrest (splitChar_ne_nil sep cs)
      | cons p ps =>
        rw [hrest] at ih
        simp only []
        cases ps with
        | nil =>
          simp only [List.intercalate, List.intersperse, List.flatten_cons, List.flatten_nil,
            List.append_nil, List.cons.injEq, true_and] at ih ⊢
          exact ih
        | cons q qs =>
          simp only [List.intercalate, List.intersperse, List.flatten_cons, List.cons_append,
            List.cons.injEq, true_and] at ih ⊢
          exact ih

/-- No piece of `splitChar` contains the separator. -/
theorem splitChar_no_sep (sep : Char) (cs : List Char) :
    ∀ p ∈ splitChar sep cs, sep ∉ p := by
  induction cs with
  | nil => simp [splitChar]
  | cons c cs ih =>
    unfold splitChar
    by_cases hc : c = sep
    · simp only [hc, if_true, List.mem_cons]
      rintro p (rfl | hp)
      · exact List.not_mem_nil sep
      · exact ih p hp
    · simp only [hc, if_false]
      cases hrest : splitChar sep cs with
      | nil => exact absurd hrest (splitChar_ne_nil sep cs)
      | cons p ps =>
        rw [hrest] at ih
        simp only [List.mem_cons]
        rintro q (rfl | hq)
        · intro hmem
          rcases List.mem_cons.1 hmem with h | h
          · exact hc h.symm
          · exact ih p (List.mem_cons_self p ps) h
        · exact ih q (List.mem_cons_of_mem p hq)

/-- What `TrimSpace` removes is a run of white space in front and one at the end, and what it
leaves neither starts nor ends with white space. -/
theorem TrimSpace_spec (s : String) :
    ∃ front back : List Char,
      s.data = front ++ (TrimSpace s).data ++ back
        ∧ (∀ c ∈ front, isSpace c = true) ∧ (∀ c ∈ back, isSpace c = true)
        ∧ (∀ c, (TrimSpace s).data.head? = some c → isSpace c = false)
        ∧ (∀ c, (TrimSpace s).data.getLast? = some c → isSpace c = false) := by
  have hmid := List.takeWhile_append_dropWhile isSpace (s.data.dropWhile isSpace).reverse
  have hsplit : s.data.dropWhile isSpace
      = ((s.data.dropWhile isSpace).reverse.dropWhile isSpace).reverse
        ++ ((s.data.dropWhile isSpace).reverse.takeWhile isSpace).reverse := by
    rw [← List.reverse_append, hmid, List.reverse_reverse]
  refine ⟨s.data.takeWhile isSpace,
    ((s.data.dropWhile isSpace).reverse.takeWhile isSpace).reverse, ?_, ?_, ?_, ?_, ?_⟩
  · show s.data = _ ++ ((s.data.dropWhile isSpace).reverse.dropWhile isSpace).reverse ++ _
    rw [List.append_assoc, ← hsplit, List.takeWhile_append_dropWhile]
  · intro c hc
    exact List.mem_takeWhile_imp hc
  · intro c hc
    exact List.mem_takeWhile_imp (List.mem_reverse.1 hc)
  · intro c hc
    change (((s.data.dropWhile isSpace).reverse.dropWhile isSpace).reverse).head? = some c at hc
    have hhead : (s.data.dropWhile isSpace).head? = some c := by
      rw [hsplit, List.head?_append, hc]
      rfl
    have := List.head?_dropWhile_not isSpace s.data
    rw [hhead] at this
    exact this
  · intro c hc
    change (((s.data.dropWhile isSpace).reverse.dropWhile isSpace).reverse).getLast? = some c
      at hc
    rw [List.getLast?_reverse] at hc
    have := List.head?_dropWhile_not isSpace (s.data.dropWhile isSpace).reverse
    rw [hc] at this
    exact this

/-! ### Agent address -/

theorem GetHostIP_of_ip (ParseIP : String → Bool) (node : Node)
    (h : ParseIP node.Name = true) : GetHostIP ParseIP node = node.Name := by
  simp [GetHostIP, h]

/-- On a node whose name is not an IP literal `GetHostIP` returns the last internal address
the node reports, and the name when it reports none. -/
theorem GetHostIP_of_name (ParseIP : String → Bool) (node : Node)
    (h : ParseIP node.Name = false) :
    GetHostIP ParseIP node
      = (((node.Addresses.filter (fun address => address.Type_ = NodeInternalIP)).map
          (fun address => address.Address)).getLast?).getD node.Name := by
  have gen : ∀ (addresses : List NodeAddress) (init : String),
      addresses.foldl (fun hostIP address =>
          if address.Type_ = NodeInternalIP then address.Address else hostIP) init
        = (((addresses.filter (fun address => address.Type_ = NodeInternalIP)).map
            (fun address => address.Address)).getLast?).getD init := by
    intro addresses
    induction addresses with
    | nil => intro init; rfl
    | cons address rest ih =>
      intro init
      simp only [List.foldl_cons, ih, List.filter_cons]
      by_cases ht : address.Type_ = NodeInternalIP
      · simp [ht, List.getLast?_cons]
      · simp [ht]
  simp only [GetHostIP, h, Bool.false_eq_true, if_false]
  exact gen node.Addresses node.Name

theorem foldl_snoc_eq_map {α β : Type} (f : α → β) (l : List α) (init : List β) :
    l.foldl (fun acc x => acc ++ [f x]) init = init ++ l.map f := by
  induction l generalizing init with
  | nil => simp
  | cons x xs ih => simp [ih]

theorem labelsToTags_eq_map (labels : List (String × String)) :
    labelsToTags labels = labels.map labelTag := by
  have h : (fun (tags : List String) (kv : String × String) =>
      if kv.2 = "tag" then tags ++ [kv.1] else tags ++ [kv.1 ++ ":" ++ kv.2])
      = fun tags kv => tags ++ [labelTag kv] := by
    funext tags kv
    unfold labelTag
    split <;> rfl
  unfold labelsToTags
  rw [h, foldl_snoc_eq_map]
  simp

/-- Everything `createConsulService` puts into the entry, once it has succeeded. -/
theorem createConsulService_ok (cfg : Config) (svc : Service) (address : String) (port : Int)
    (e : AgentServiceRegistration) (h : createConsulService cfg svc address port = .ok e) :
    ∃ healthPort : Int, IsHealthPort svc port healthPort
      ∧ e.ID = svc.Name ++ "-" ++ svc.UID ++ "-" ++ address ++ "-" ++ formatInt port
      ∧ e.Address = address ∧ e.Port = port
      ∧ e.Tags = [cfg.K8sTag, "uid:" ++ svc.UID] ++ annotationTags svc ++ labelsToTags svc.Labels
      ∧ e.Check.HTTP =
        (match mapGet svc.Annotations ConsulRegisterServiceHealthCheckPathAnnotation with
        | some path => "http://" ++ healthHostOf svc address ++ ":" ++ formatInt healthPort ++ path
        | none =>
          match mapGet svc.Annotations ConsulRegisterServiceHealthTTLAnnotation with
          | some _ => ""
          | none =>
            match mapGet svc.Annotations ConsulRegisterServiceHealthTCPAnnotation with
            | some tcp =>
              if tcp ≠ "" then ""
              else "http://" ++ healthHostOf svc address ++ ":" ++ formatInt healthPort ++ "/"
            | none => "http://" ++ healthHostOf svc address ++ ":" ++ formatInt healthPort ++ "/")
      ∧ e.Check.TTL =
        (match mapGet svc.Annotations ConsulRegisterServiceHealthCheckPathAnnotation with
        | some _ => ""
        | none =>
          match mapGet svc.Annotations ConsulRegisterServiceHealthTTLAnnotation with
          | some ttl => ttl
          | none => "")
      ∧ e.Check.TCP =
        (match mapGet svc.Annotations ConsulRegisterServiceHealthCheckPathAnnotation with
        | some _ => ""
        | none =>
          match mapGet svc.Annotations ConsulRegisterServiceHealthTTLAnnotation with
          | some _ => ""
          | none =>
            match mapGet svc.Annotations ConsulRegisterServiceHealthTCPAnnotation with
            | some tcp =>
              if tcp ≠ "" then healthHostOf svc address ++ ":" ++ formatInt healthPort else ""
            | none => "") := by
  have hlit : "http" ++ "://" = "http://" := by decide
  unfold createConsulService at h
  simp only [] at h
  split at h
  · exact absurd h (by simp)
  · rename_i healthPort hport
    injection h with h
    subst h
    refine ⟨healthPort, ?_, rfl, rfl, rfl, ?_, ?_, ?_, ?_⟩
    · unfold IsHealthPort
      split at hport
      · rename_i value hv
        split at hport
        · exact absurd hport (by simp)
        · rename_i n hn
          simp only [hn]
          injection hport with hport
          rw [hport]
      · rename_i hv
        injection hport with hport
        exact hport.symm
    · simp only [annotationTags]
      split
      · simp [foldl_snoc_eq_map]
      · simp
    · simp only [healthHostOf, hlit]
      split
      · rfl
      · split
        · rfl
        · split
          · split <;> rfl
          · rfl
    · simp only []
      split
      · rfl
      · split
        · rfl
        · split
          · split <;> rfl
          · rfl
    · simp only [healthHostOf]
      split
      · rfl
      · split
        · rfl
        · split
          · split <;> rfl
          · rfl

/-- C1: when `createConsulService` succeeds, the identity of the entry is
name, uid, address and the decimal port joined by `-`, its address is the target address and
its port the target port. -/
theorem createConsulService_identity (cfg : Config) (svc : Service) (address : String)
    (port : Int) (e : AgentServiceRegistration)
    (h : createConsulService cfg svc address port = .ok e) :
    e.ID = svc.Name ++ "-" ++ svc.UID ++ "-" ++ address ++ "-" ++ formatInt port
      ∧ e.Address = address ∧ e.Port = port := by
  obtain ⟨_, _, hid, haddr, hport, _⟩ := createConsulService_ok cfg svc address port e h
  exact ⟨hid, haddr, hport⟩

/-- The example of the specification: `web`, `abc123`, `10.0.0.5`, `30080`. -/
theorem createConsulService_identity_witness :
    createConsulService exampleCfg exampleWeb "10.0.0.5" 30080 = .ok exampleWebEntry
      ∧ exampleWebEntry.ID = "web-abc123-10.0.0.5-30080"
      ∧ exampleWebEntry.ID = "web" ++ "-" ++ "abc123" ++ "-" ++ "10.0.0.5" ++ "-" ++ formatInt 30080
      ∧ exampleWebEntry.Address = "10.0.0.5" ∧ exampleWebEntry.Port = 30080 :=
  ⟨rfl, rfl, createConsulService_identity exampleCfg exampleWeb "10.0.0.5" 30080 exampleWebEntry rfl⟩

/-- C2: when `createConsulService` succeeds, the tags are the ownership tag, the uid tag, the
trimmed comma-separated pieces of the `service.tags` annotation in order, and one tag per
label; the label tags are the same multiset whatever order the labels are visited in. -/
theorem createConsulService_tags (cfg : Config) (svc : Service) (address : String)
    (port : Int) (e : AgentServiceRegistration)
    (h : createConsulService cfg svc address port = .ok e) :
    e.Tags = [cfg.K8sTag, "uid:" ++ svc.UID] ++ annotationTags svc ++ labelsToTags svc.Labels
      ∧ cfg.K8sTag ∈ e.Tags ∧ ("uid:" ++ svc.UID) ∈ e.Tags
      ∧ ∀ order : List (String × String), order.Perm svc.Labels →
          (Multiset.ofList (labelsToTags order) : Multiset String)
            = Multiset.map labelTag (Multiset.ofList svc.Labels) := by
  obtain ⟨_, _, _, _, _, htags, _⟩ := createConsulService_ok cfg svc address port e h
  refine ⟨htags, ?_, ?_, ?_⟩
  · rw [htags]; simp
  · rw [htags]; simp
  · intro order hperm
    rw [labelsToTags_eq_map, Multiset.map_coe]
    exact Quotient.sound (hperm.map labelTag)

theorem createConsulService_tags_witness :
    exampleApiEntry.Tags
        = ["kubernetes", "uid:" ++ "u-7"] ++ annotationTags exampleApi
          ++ labelsToTags exampleApi.Labels
      ∧ "kubernetes" ∈ exampleApiEntry.Tags ∧ ("uid:" ++ "u-7") ∈ exampleApiEntry.Tags
      ∧ ∀ order : List (String × String), order.Perm exampleApi.Labels →
          (Multiset.ofList (labelsToTags order) : Multiset String)
            = Multiset.map labelTag (Multiset.ofList exampleApi.Labels) :=
  createConsulService_tags exampleCfg exampleApi "192.0.2.7" 31000 exampleApiEntry rfl

/-- C4: health-check precedence. With the health host and health port resolved from
the annotations or the target, a `health.path` annotation gives the HTTP check on that path
(whatever the TTL and TCP annotations say), else a `health.ttl` annotation gives the TTL check
with its value, else a non-empty `health.tcp` annotation gives the TCP check, else the check
is the HTTP check on `/`; the other two fields are empty each time. -/
theorem createConsulService_check_precedence (cfg : Config) (svc : Service) (address : String)
    (port : Int) (e : AgentServiceRegistration)
    (h : createConsulService cfg svc address port = .ok e) :
    ∃ healthPort : Int, IsHealthPort svc port healthPort
      ∧ (∀ path, mapGet svc.Annotations ConsulRegisterServiceHealthCheckPathAnnotation = some path →
          e.Check.HTTP
              = "http://" ++ healthHostOf svc address ++ ":" ++ formatInt healthPort ++ path
            ∧ e.Check.TTL = "" ∧ e.Check.TCP = "")
      ∧ (mapGet svc.Annotations ConsulRegisterServiceHealthCheckPathAnnotation = none →
          ∀ ttl, mapGet svc.Annotations ConsulRegisterServiceHealthTTLAnnotation = some ttl →
            e.Check.TTL = ttl ∧ e.Check.HTTP = "" ∧ e.Check.TCP = "")
      ∧ (mapGet svc.Annotations ConsulRegisterServiceHealthCheckPathAnnotation = none →
          mapGet svc.Annotations ConsulRegisterServiceHealthTTLAnnotation = none →
          ∀ tcp, mapGet svc.Annotations ConsulRegisterServiceHealthTCPAnnotation = some tcp →
            tcp ≠ "" →
            e.Check.TCP = healthHostOf svc address ++ ":" ++ formatInt healthPort
              ∧ e.Check.HTTP = "" ∧ e.Check.TTL = "")
      ∧ (mapGet svc.Annotations ConsulRegisterServiceHealthCheckPathAnnotation = none →
          mapGet svc.Annotations ConsulRegisterServiceHealthTTLAnnotation = none →
          (mapGet svc.Annotations ConsulRegisterServiceHealthTCPAnnotation = none
            ∨ mapGet svc.Annotations ConsulRegisterServiceHealthTCPAnnotation = some "") →
          e.Check.HTTP
              = "http://" ++ healthHostOf svc address ++ ":" ++ formatInt healthPort ++ "/"
            ∧ e.Check.TCP = "" ∧ e.Check.TTL = "") := by
  obtain ⟨healthPort, hp, _, _, _, _, hhttp, httl, htcp⟩ :=
    createConsulService_ok cfg svc address port e h
  refine ⟨healthPort, hp, ?_, ?_, ?_, ?_⟩
  · intro path hpath
    rw [hhttp, httl, htcp]
    simp [hpath]
  · intro hpath ttl httlA
    rw [hhttp, httl, htcp]
    simp [hpath, httlA]
  · intro hpath httlA tcp htcpA hne
    rw [hhttp, httl, htcp]
    simp only [hpath, httlA, htcpA]
    simp [hne]
  · intro hpath httlA htcpA
    rw [hhttp, httl, htcp]
    simp only [hpath, httlA]
    rcases htcpA with htcpA | htcpA
    · simp [htcpA]
    · simp [htcpA]

/-- Path, TTL and TCP annotations are all set on `exampleApi`: the path wins, on the
annotated host and the parsed port. -/
theorem createConsulService_check_precedence_witness :
    createConsulService exampleCfg exampleApi "192.0.2.7" 31000 = .ok exampleApiEntry
      ∧ mapGet exampleApi.Annotations ConsulRegisterServiceHealthTTLAnnotation = some "30s"
      ∧ exampleApiEntry.Check.HTTP = "http://probe.local:8080/healthz"
      ∧ exampleApiEntry.Check.TTL = "" ∧ exampleApiEntry.Check.TCP = "" := by
  have hcreate : createConsulService exampleCfg exampleApi "192.0.2.7" 31000
      = .ok exampleApiEntry := rfl
  obtain ⟨healthPort, _, hpath, _⟩ :=
    createConsulService_check_precedence exampleCfg exampleApi "192.0.2.7" 31000
      exampleApiEntry hcreate
  have hthree := hpath "/healthz" (by decide)
  exact ⟨hcreate, by decide, by decide, hthree.2.1, hthree.2.2⟩

/-! ### Register path on ineligible workloads -/

theorem forEachErr_skip {α : Type} (f : α → World → Option String × World) (xs : List α)
    (w : World) (h : ∀ x ∈ xs, f x w = (none, w)) : forEachErr f xs w = (none, w) := by
  induction xs with
  | nil => rfl
  | cons x xs ih =>
    simp only [forEachErr, h x (List.mem_cons_self x xs)]
    exact ih (fun y hy => h y (List.mem_cons_of_mem x hy))

theorem isRegisterEnabled_eq_false (svc : Service)
    (h : mapGet svc.Annotations ConsulRegisterEnabledAnnotation = none
      ∨ (∃ value, mapGet svc.Annotations ConsulRegisterEnabledAnnotation = some value
          ∧ ((∃ err, ParseBool value = .error err) ∨ ParseBool value = .ok false))) :
    isRegisterEnabled svc = false := by
  unfold isRegisterEnabled
  rcases h with h | ⟨value, hv, hparse⟩
  · simp [h]
  · rcases hparse with ⟨err, herr⟩ | hfalse
    · simp [hv, herr]
    · simp [hv, hfalse]

theorem eventAddFunc_of_ineligible (env : Env) (svc : Service) (w : World)
    (h : Ineligible svc) : eventAddFunc env svc w = (none, w) := by
  unfold Ineligible at h
  unfold eventAddFunc
  rcases h with h | h | ⟨htype, hext⟩
  · simp [isRegisterEnabled_eq_false svc (Or.inl h)]
  · simp [isRegisterEnabled_eq_false svc (Or.inr h)]
  · by_cases hen : isRegisterEnabled svc = true
    · simp [hen, htype, hext]
    · simp [hen]

theorem syncService_of_ineligible (env : Env) (added : List (String × String))
    (registered : List (String × List String)) (svc : Service) (w : World)
    (h : Ineligible svc) : syncService env added registered svc w = (none, w) := by
  unfold syncService
  by_cases hen : isRegisterEnabled svc = true
  · simp only [hen, not_true_eq_false, if_false]
    split
    · apply forEachErr_skip
      intro id _
      split
      · rfl
      · exact eventAddFunc_of_ineligible env svc w h
    · exact eventAddFunc_of_ineligible env svc w h
  · simp [hen]

/-- C8: an ineligible workload (enabled annotation missing, unparsable or false; or not of
the node-port type and without external addresses) goes through the register path without
a register call, without a change of the dedup set and without an error; and a `Sync`
over a listing of such workloads leaves the state as it was and returns an error only when
the agents cannot be resolved. -/
theorem ineligible_no_entries (env : Env) (w : World) :
    (∀ svc, Ineligible svc → eventAddFunc env svc w = (none, w))
      ∧ (∀ svcs, env.listServices = .ok svcs → (∀ svc ∈ svcs, Ineligible svc) →
          (Sync env w).2 = w ∧ ((cacheConsulAgent env).2 = none → (Sync env w).1 = none)) := by
  refine ⟨fun svc h => eventAddFunc_of_ineligible env svc w h, ?_⟩
  intro svcs hlist hall
  unfold Sync
  rcases hcache : cacheConsulAgent env with ⟨agents, _ | err⟩
  · simp only [hlist]
    rw [forEachErr_skip _ svcs w
      (fun svc hsvc => syncService_of_ineligible env _ _ svc w (hall svc hsvc))]
    exact ⟨rfl, fun _ => rfl⟩
  · exact ⟨rfl, fun hnone => absurd hnone (by simp)⟩

theorem ineligible_no_entries_witness :
    eventAddFunc exampleEnv exampleInternal emptyWorld = (none, emptyWorld)
      ∧ eventAddFunc exampleEnv exampleMisspelt emptyWorld = (none, emptyWorld)
      ∧ Sync { exampleEnv with listServices := .ok [exampleInternal, exampleMisspelt] } emptyWorld
          = (none, emptyWorld) := by
  have hinternal : Ineligible exampleInternal := Or.inr (Or.inr ⟨by decide, rfl⟩)
  have hmisspelt : Ineligible exampleMisspelt :=
    Or.inr (Or.inl ⟨"yes", rfl, Or.inl ⟨_, rfl⟩⟩)
  refine ⟨(ineligible_no_entries exampleEnv emptyWorld).1 _ hinternal,
    (ineligible_no_entries exampleEnv emptyWorld).1 _ hmisspelt, ?_⟩
  have hsync := (ineligible_no_entries
    { exampleEnv with listServices := .ok [exampleInternal, exampleMisspelt] } emptyWorld).2
    [exampleInternal, exampleMisspelt] rfl (by
      intro svc hsvc
      simp only [List.mem_cons, List.mem_singleton, List.not_mem_nil, or_false] at hsvc
      rcases hsvc with rfl | rfl
      · exact hinternal
      · exact hmisspelt)
  exact Prod.ext (hsync.2 rfl) hsync.1

/-! ### Deregister path and agent address, evaluated -/

/-- C9: the deregister path has no case for a cluster-IP workload with explicit external
addresses, which the register path does register: after a successful register of
`exampleExternal` the identity `db-u-9-192.0.2.9-0` is in the dedup set, and the deregister
path returns without a deregister call and leaves it there. -/
theorem eventDeleteFunc_misses_clusterIP :
    (eventAddFunc exampleEnv exampleExternal emptyWorld).2.allAddedServices
        = ["db-u-9-192.0.2.9-0"]
      ∧ eventDeleteFunc exampleEnv exampleExternal
          (eventAddFunc exampleEnv exampleExternal emptyWorld).2
        = (none, (eventAddFunc exampleEnv exampleExternal emptyWorld).2) := by
  decide

/-- C10: on a node whose name is not an IP literal and which reports the internal
addresses `10.0.0.1` and `10.0.0.2` in that order, `GetHostIP` returns the later one. -/
theorem GetHostIP_returns_last_internal :
    exampleParseIP exampleDualNode.Name = false
      ∧ GetHostIP exampleParseIP exampleDualNode = "10.0.0.2" := by
  decide

/-! ### Maps and sets -/

theorem mapGet_mapSet_same {β : Type} (m : List (String × β)) (k : String) (v : β) :
    mapGet (mapSet m k v) k = some v := by
  induction m with
  | nil => simp [mapSet, mapGet]
  | cons kv rest ih =>
    obtain ⟨k0, v0⟩ := kv
    by_cases h : k0 = k
    · simp [mapSet, mapGet, h]
    · simp [mapSet, mapGet, h, ih]

theorem mapGet_mapSet_ne {β : Type} (m : List (String × β)) (k k1 : String) (v : β)
    (hne : k1 ≠ k) : mapGet (mapSet m k v) k1 = mapGet m k1 := by
  induction m with
  | nil => simp [mapSet, mapGet, Ne.symm hne]
  | cons kv rest ih =>
    obtain ⟨k0, v0⟩ := kv
    by_cases h : k0 = k
    · subst h
      simp [mapSet, mapGet, Ne.symm hne]
    · by_cases h1 : k0 = k1
      · subst h1
        simp [mapSet, mapGet, h]
      · simp [mapSet, mapGet, h, h1, ih]

theorem keys_mapSet {β : Type} (m : List (String × β)) (k : String) (v : β) :
    (mapSet m k v).map Prod.fst
      = if k ∈ m.map Prod.fst then m.map Prod.fst else m.map Prod.fst ++ [k] := by
  induction m with
  | nil => simp [mapSet]
  | cons kv rest ih =>
    obtain ⟨k0, v0⟩ := kv
    by_cases h : k0 = k
    · subst h
      simp [mapSet]
    · have hne : ¬ k = k0 := fun hk => h hk.symm
      simp only [mapSet, h, if_false, List.map_cons, ih, List.mem_cons, hne, false_or]
      split <;> simp

theorem nodup_keys_mapSet {β : Type} (m : List (String × β)) (k : String) (v : β)
    (h : (m.map Prod.fst).Nodup) : ((mapSet m k v).map Prod.fst).Nodup := by
  rw [keys_mapSet]
  split
  · exact h
  · rename_i hk
    exact List.Nodup.append h (List.nodup_singleton k) (by simpa using hk)

theorem mem_keys_of_mapGet {β : Type} (m : List (String × β)) (k : String) (v : β)
    (h : mapGet m k = some v) : (k, v) ∈ m := by
  induction m with
  | nil => simp [mapGet] at h
  | cons kv rest ih =>
    obtain ⟨k0, v0⟩ := kv
    by_cases hk : k0 = k
    · simp only [mapGet, hk, if_true, Option.some.injEq] at h
      subst hk; subst h
      exact List.mem_cons_self _ _
    · simp only [mapGet, hk, if_false] at h
      exact List.mem_cons_of_mem _ (ih h)

theorem mem_setAdd (s : List String) (id x : String) :
    x ∈ setAdd s id ↔ x ∈ s ∨ x = id := by
  unfold setAdd
  split
  · rename_i h
    constructor
    · exact Or.inl
    · rintro (hx | rfl)
      · exact hx
      · exact h
  · simp

theorem mem_setDelete (s : List String) (id x : String) :
    x ∈ setDelete s id ↔ x ∈ s ∧ x ≠ id := by
  simp [setDelete]

/-! ### Register path -/

theorem registerOne_eq (env : Env) (hok : ∀ n, env.callOk n = true) (svc : Service)
    (a : String) (w : World) (p : Int) :
    registerOne env svc a w p =
      match createConsulService env.cfg svc a p with
      | .error _ => w
      | .ok e =>
        if e.ID ∈ w.allAddedServices then w
        else
          { allAddedServices := setAdd w.allAddedServices e.ID,
            registry := mapSet w.registry e.ID e,
            calls := w.calls ++ [Call.register { Name := a, PodIP := "" } e] } := by
  unfold registerOne
  split
  · rfl
  · split
    · rfl
    · simp [adapterRegister, hok]

theorem registerAll_preserves (P : World → Prop) (env : Env) (svc : Service)
    (nodesIPs : List String) (ports : List Int)
    (h : ∀ a p w, a ∈ nodesIPs → p ∈ ports → P w → P (registerOne env svc a w p))
    (w : World) (hw : P w) : P (registerAll env svc nodesIPs ports w) := by
  unfold registerAll
  have inner : ∀ (a : String), a ∈ nodesIPs → ∀ (ps : List Int), (∀ p ∈ ps, p ∈ ports) →
      ∀ w, P w → P (ps.foldl (registerOne env svc a) w) := by
    intro a ha ps
    induction ps with
    | nil => intro _ w hw; exact hw
    | cons p ps ih =>
      intro hps w hw
      exact ih (fun q hq => hps q (List.mem_cons_of_mem p hq)) _
        (h a p w ha (hps p (List.mem_cons_self p ps)) hw)
  have outer : ∀ (ips : List String), (∀ a ∈ ips, a ∈ nodesIPs) → ∀ w, P w →
      P (ips.foldl (fun w nodeAddress => ports.foldl (registerOne env svc nodeAddress) w) w) := by
    intro ips
    induction ips with
    | nil => intro _ w hw; exact hw
    | cons a ips ih =>
      intro hips w hw
      exact ih (fun b hb => hips b (List.mem_cons_of_mem a hb)) _
        (inner a (hips a (List.mem_cons_self a ips)) ports (fun p hp => hp) w hw)
  exact outer nodesIPs (fun a ha => ha) w hw

theorem registerOne_dedup_mono (env : Env) (svc : Service) (a : String) (w : World) (p : Int)
    (id : String) (h : id ∈ w.allAddedServices) :
    id ∈ (registerOne env svc a w p).allAddedServices := by
  unfold registerOne
  split
  · exact h
  · split
    · exact h
    · unfold adapterRegister
      cases env.callOk w.calls.length
      · exact h
      · exact (mem_setAdd _ _ _).2 (Or.inl h)

theorem registerOne_adds (env : Env) (hok : ∀ n, env.callOk n = true) (svc : Service)
    (a : String) (w : World) (p : Int) (e : AgentServiceRegistration)
    (he : createConsulService env.cfg svc a p = .ok e) :
    e.ID ∈ (registerOne env svc a w p).allAddedServices := by
  rw [registerOne_eq env hok, he]
  simp only []
  split
  · assumption
  · exact (mem_setAdd _ _ _).2 (Or.inr rfl)

theorem registerAll_adds (env : Env) (hok : ∀ n, env.callOk n = true) (svc : Service)
    (nodesIPs : List String) (ports : List Int) (w : World) (a : String) (p : Int)
    (e : AgentServiceRegistration) (ha : a ∈ nodesIPs) (hp : p ∈ ports)
    (he : createConsulService env.cfg svc a p = .ok e) :
    e.ID ∈ (registerAll env svc nodesIPs ports w).allAddedServices := by
  have inner_mono : ∀ (b : String) (ps : List Int) (w : World),
      e.ID ∈ w.allAddedServices →
      e.ID ∈ (ps.foldl (registerOne env svc b) w).allAddedServices := by
    intro b ps
    induction ps with
    | nil => intro w hw; exact hw
    | cons q ps ih => intro w hw; exact ih _ (registerOne_dedup_mono env svc b w q _ hw)
  have inner_adds : ∀ (ps : List Int), p ∈ ps → ∀ w : World,
      e.ID ∈ (ps.foldl (registerOne env svc a) w).allAddedServices := by
    intro ps
    induction ps with
    | nil => intro hmem; exact absurd hmem (List.not_mem_nil p)
    | cons q ps ih =>
      intro hmem w
      rcases List.mem_cons.1 hmem with rfl | hmem
      · exact inner_mono a ps _ (registerOne_adds env hok svc a w p e he)
      · exact ih hmem _
  have outer_mono : ∀ (ips : List String) (w : World), e.ID ∈ w.allAddedServices →
      e.ID ∈ (ips.foldl (fun w b => ports.foldl (registerOne env svc b) w) w).allAddedServices := by
    intro ips
    induction ips with
    | nil => intro w hw; exact hw
    | cons b ips ih => intro w hw; exact ih _ (inner_mono b ports w hw)
  have outer_adds : ∀ (ips : List String), a ∈ ips → ∀ w : World,
      e.ID ∈ (ips.foldl (fun w b => ports.foldl (registerOne env svc b) w) w).allAddedServices := by
    intro ips
    induction ips with
    | nil => intro hmem; exact absurd hmem (List.not_mem_nil a)
    | cons b ips ih =>
      intro hmem w
      rcases List.mem_cons.1 hmem with rfl | hmem
      · exact outer_mono ips _ (inner_adds ports hp w)
      · exact ih hmem _
  exact outer_adds nodesIPs ha w

theorem registerOne_skip (env : Env) (svc : Service) (a : String) (w : World) (p : Int)
    (h : ∀ e, createConsulService env.cfg svc a p = .ok e → e.ID ∈ w.allAddedServices) :
    registerOne env svc a w p = w := by
  unfold registerOne
  split
  · rfl
  · rename_i e he
    simp [h e he]

theorem registerAll_skip (env : Env) (svc : Service) (nodesIPs : List String)
    (ports : List Int) (w : World)
    (h : ∀ a ∈ nodesIPs, ∀ p ∈ ports, ∀ e, createConsulService env.cfg svc a p = .ok e →
      e.ID ∈ w.allAddedServices) :
    registerAll env svc nodesIPs ports w = w := by
  have hP := registerAll_preserves (fun w1 => w1 = w) env svc nodesIPs ports
    (by
      intro a p w1 ha hp hw1
      subst hw1
      exact registerOne_skip env svc a w1 p (h a ha p hp)) w rfl
  exact hP

theorem eventAddFunc_world (env : Env) (svc : Service) (w : World) :
    (eventAddFunc env svc w).2
      = registerAll env svc (registerAddresses env svc) (tcpNodePorts svc) w := by
  unfold eventAddFunc registerAddresses
  by_cases hen : isRegisterEnabled svc = true
  · simp only [hen, not_true_eq_false, if_false]
    by_cases hnp : svc.Type_ = ServiceTypeNodePort
    · simp only [hnp, if_true]
      by_cases hext : svc.ExternalIPs.length > 0
      · simp only [hext, if_true]
      · simp only [hext, if_false]
        cases hn : getNodesIPs env with
        | error err => simp [registerAll]
        | ok ips => simp
    · simp only [hnp, if_false]
      by_cases hci : svc.Type_ = ServiceTypeClusterIP
      · simp only [hci, if_true]
        by_cases hext : svc.ExternalIPs.length > 0
        · simp only [hext, if_true]
        · have hnil : svc.ExternalIPs = [] := by
            cases hl : svc.ExternalIPs with
            | nil => rfl
            | cons x xs => simp [hl] at hext
          simp [hnil, registerAll]
      · simp [hci, registerAll]
  · simp [hen, registerAll]

theorem eventAddFunc_error (env : Env) (svc : Service) (w w1 : World) :
    (eventAddFunc env svc w).1 = (eventAddFunc env svc w1).1 := by
  unfold eventAddFunc
  split
  · rfl
  · split
    · split <;> rfl
    · split
      · split <;> rfl
      · rfl

theorem registerOne_nodup (env : Env) (svc : Service) (a : String) (w : World) (p : Int)
    (h : (w.registry.map Prod.fst).Nodup) :
    ((registerOne env svc a w p).registry.map Prod.fst).Nodup := by
  unfold registerOne
  split
  · exact h
  · split
    · exact h
    · unfold adapterRegister
      cases env.callOk w.calls.length
      · exact h
      · exact nodup_keys_mapSet _ _ _ h

theorem registerOne_traced (env : Env) (svc : Service) (a : String) (w : World) (p : Int)
    (dedup0 : List String)
    (h : ∀ id ∈ w.allAddedServices, id ∈ dedup0 ∨ id ∈ w.registry.map Prod.fst) :
    ∀ id ∈ (registerOne env svc a w p).allAddedServices,
      id ∈ dedup0 ∨ id ∈ (registerOne env svc a w p).registry.map Prod.fst := by
  unfold registerOne
  split
  · exact h
  · split
    · exact h
    · rename_i e he hnot
      unfold adapterRegister
      cases env.callOk w.calls.length
      · exact h
      · intro id hid
        simp only [if_true] at hid ⊢
        rw [keys_mapSet]
        rcases (mem_setAdd _ _ _).1 hid with hid | rfl
        · rcases h id hid with h0 | h1
          · exact Or.inl h0
          · right
            split
            · exact h1
            · exact List.mem_append_left _ h1
        · right
          split
          · assumption
          · simp

/-- C3, amended: with register calls succeeding and a registry whose keys are distinct, a
second run of the register path on the same inputs returns what the first returned and leaves
the state of the first run as it is (same dedup set, same registry, no further call); the
registry never holds two entries under one identity; and for every address and port the path
runs over on which `createConsulService` succeeds, the identity is in the dedup set and,
unless it was in the dedup set before the first run, the registry holds exactly one entry
under it. -/
theorem eventAddFunc_idempotent (env : Env) (svc : Service) (w : World)
    (hok : ∀ n, env.callOk n = true) (hmap : (w.registry.map Prod.fst).Nodup) :
    eventAddFunc env svc (eventAddFunc env svc w).2 = eventAddFunc env svc w
      ∧ (∀ id, ((eventAddFunc env svc w).2.registry.map Prod.fst).count id ≤ 1)
      ∧ (∀ a ∈ registerAddresses env svc, ∀ p ∈ tcpNodePorts svc, ∀ e,
          createConsulService env.cfg svc a p = .ok e →
            e.ID ∈ (eventAddFunc env svc w).2.allAddedServices
              ∧ (e.ID ∉ w.allAddedServices →
                  ((eventAddFunc env svc w).2.registry.map Prod.fst).count e.ID = 1)) := by
  have hnodup : ((eventAddFunc env svc w).2.registry.map Prod.fst).Nodup := by
    rw [eventAddFunc_world]
    exact registerAll_preserves (fun w1 => (w1.registry.map Prod.fst).Nodup) env svc _ _
      (fun a p w1 _ _ h1 => registerOne_nodup env svc a w1 p h1) w hmap
  have hadds : ∀ a ∈ registerAddresses env svc, ∀ p ∈ tcpNodePorts svc, ∀ e,
      createConsulService env.cfg svc a p = .ok e →
        e.ID ∈ (eventAddFunc env svc w).2.allAddedServices := by
    intro a ha p hp e he
    rw [eventAddFunc_world]
    exact registerAll_adds env hok svc _ _ w a p e ha hp he
  have htraced : ∀ id ∈ (eventAddFunc env svc w).2.allAddedServices,
      id ∈ w.allAddedServices ∨ id ∈ (eventAddFunc env svc w).2.registry.map Prod.fst := by
    rw [eventAddFunc_world]
    exact registerAll_preserves
      (fun w1 => ∀ id ∈ w1.allAddedServices,
        id ∈ w.allAddedServices ∨ id ∈ w1.registry.map Prod.fst) env svc _ _
      (fun a p w1 _ _ h1 => registerOne_traced env svc a w1 p w.allAddedServices h1) w
      (fun id hid => Or.inl hid)
  refine ⟨?_, ?_, ?_⟩
  · apply Prod.ext
    · exact eventAddFunc_error env svc _ _
    · rw [eventAddFunc_world env svc (eventAddFunc env svc w).2]
      exact registerAll_skip env svc _ _ _ hadds
  · intro id
    exact List.nodup_iff_count_le_one.1 hnodup id
  · intro a ha p hp e he
    refine ⟨hadds a ha p hp e he, fun hnot => ?_⟩
    rcases htraced e.ID (hadds a ha p hp e he) with h0 | h1
    · exact absurd h0 hnot
    · exact List.count_eq_one_of_mem hnodup h1

/-- The example of the specification, registered twice from an empty state: one entry. -/
theorem eventAddFunc_idempotent_witness :
    (∀ n, exampleEnv.callOk n = true) ∧ (emptyWorld.registry.map Prod.fst).Nodup
      ∧ (eventAddFunc exampleEnv exampleWeb emptyWorld).2.registry
          = [("web-abc123-10.0.0.5-30080", exampleWebEntry)]
      ∧ eventAddFunc exampleEnv exampleWeb (eventAddFunc exampleEnv exampleWeb emptyWorld).2
          = eventAddFunc exampleEnv exampleWeb emptyWorld
      ∧ ((eventAddFunc exampleEnv exampleWeb emptyWorld).2.registry.map Prod.fst).count
          "web-abc123-10.0.0.5-30080" = 1 := by
  have h := eventAddFunc_idempotent exampleEnv exampleWeb emptyWorld (fun _ => rfl)
    List.nodup_nil
  refine ⟨fun _ => rfl, List.nodup_nil, by decide, h.1, ?_⟩
  exact (h.2.2 "10.0.0.5" (by decide) 30080 (by decide) exampleWebEntry rfl).2 (by decide)

/-- C3 as stated fails when the dedup set already holds the identity and the registry does
not: the register path is run twice on the example of the specification with register calls
succeeding, and the registry holds no entry under `web-abc123-10.0.0.5-30080`. -/
theorem eventAddFunc_stale_dedup_no_entry :
    (∀ n, exampleEnv.callOk n = true)
      ∧ isRegisterEnabled exampleWeb = true
      ∧ "10.0.0.5" ∈ registerAddresses exampleEnv exampleWeb
      ∧ (30080 : Int) ∈ tcpNodePorts exampleWeb
      ∧ createConsulService exampleEnv.cfg exampleWeb "10.0.0.5" 30080 = .ok exampleWebEntry
      ∧ ((eventAddFunc exampleEnv exampleWeb
            (eventAddFunc exampleEnv exampleWeb staleWorld).2).2.registry.map Prod.fst).count
          exampleWebEntry.ID = 0 :=
  ⟨fun _ => rfl, by decide, by decide, by decide, rfl, by decide⟩

/-! ### Listing of owned entries -/

theorem mapGet_of_mem_nodup {β : Type} (m : List (String × β)) (k : String) (v : β)
    (hnodup : (m.map Prod.fst).Nodup) (hmem : (k, v) ∈ m) : mapGet m k = some v := by
  induction m with
  | nil => exact absurd hmem (List.not_mem_nil _)
  | cons kv rest ih =>
    obtain ⟨k0, v0⟩ := kv
    simp only [List.map_cons, List.nodup_cons] at hnodup
    rcases List.mem_cons.1 hmem with heq | hrest
    · injection heq with h1 h2
      subst h1; subst h2
      simp [mapGet]
    · have hne : k0 ≠ k := by
        intro h
        subst h
        exact hnodup.1 (List.mem_map.2 ⟨(k0, v), hrest, rfl⟩)
      simp only [mapGet, hne, if_false]
      exact ih hnodup.2 hrest

theorem nodup_keys_foldl_mapSet {α β : Type} (f : α → String) (g : List (String × β) → α → β)
    (xs : List α) (init : List (String × β)) (h : (init.map Prod.fst).Nodup) :
    ((xs.foldl (fun m x => mapSet m (f x) (g m x)) init).map Prod.fst).Nodup := by
  induction xs generalizing init with
  | nil => exact h
  | cons x xs ih => exact ih _ (nodup_keys_mapSet _ _ _ h)

theorem cacheConsulAgent_nodup (env : Env) :
    ((cacheConsulAgent env).1.map Prod.fst).Nodup := by
  unfold cacheConsulAgent
  split
  · simp [mapSet]
  · split
    · exact List.nodup_nil
    · exact nodup_keys_foldl_mapSet (fun (node : Node) => node.Name)
        (fun _ node => ({ Name := GetHostIP env.ParseIP node, PodIP := "" } : Agent)) _ []
        List.nodup_nil
  · split
    · exact List.nodup_nil
    · exact nodup_keys_foldl_mapSet (fun (pod : Pod) => pod.HostIP)
        (fun _ pod => ({ Name := "", PodIP := pod.HostIP } : Agent)) _ [] List.nodup_nil
  · exact List.nodup_nil

theorem addListedService_eq (env : Env) (k : String) (a : Agent)
    (acc : List (String × String) × List (String × List String)) (s : AgentService) :
    addListedService env k acc s
      = if env.CheckK8sTag s.Tags env.cfg.K8sTag then collectStep env acc (k, a, s) else acc := by
  unfold addListedService collectStep uidOf
  split
  · simp only []
    cases mapGet acc.2 (env.GetConsulServiceTag s.Tags "uid") <;> simp
  · rfl

theorem getAddedConsulServices_eq (env : Env) (agents : List (String × Agent)) :
    getAddedConsulServices env agents
      = (ownedListing env agents).foldl (collectStep env) ([], []) := by
  have inner : ∀ (k : String) (a : Agent) (services : List AgentService)
      (acc : List (String × String) × List (String × List String)),
      services.foldl (addListedService env k) acc
        = ((services.filter (fun s => env.CheckK8sTag s.Tags env.cfg.K8sTag)).map
            (fun s => (k, a, s))).foldl (collectStep env) acc := by
    intro k a services
    induction services with
    | nil => intro acc; rfl
    | cons s rest ih =>
      intro acc
      simp only [List.foldl_cons, addListedService_eq env k a, List.filter_cons]
      by_cases h : env.CheckK8sTag s.Tags env.cfg.K8sTag = true
      · simp only [h, if_true, List.map_cons, List.foldl_cons]
        exact ih _
      · simp only [h, if_false, Bool.false_eq_true]
        exact ih _
  have outer : ∀ (agents : List (String × Agent))
      (acc : List (String × String) × List (String × List String)),
      agents.foldl (fun acc agent =>
          match env.agentServices agent.2 with
          | .error _ => acc
          | .ok services => services.foldl (addListedService env agent.1) acc) acc
        = (ownedListing env agents).foldl (collectStep env) acc := by
    intro agents
    induction agents with
    | nil => intro acc; rfl
    | cons agent rest ih =>
      intro acc
      unfold ownedListing
      simp only [List.foldl_cons, List.flatMap_cons, List.foldl_append]
      rw [ih]
      unfold ownedListing
      cases hs : env.agentServices agent.2 with
      | error err => simp
      | ok services => simp only [inner agent.1 agent.2 services acc]
  exact outer agents ([], [])

theorem mem_agents_of_owned (env : Env) (agents : List (String × Agent))
    (x : String × Agent × AgentService) (hx : x ∈ ownedListing env agents) :
    (x.1, x.2.1) ∈ agents := by
  unfold ownedListing at hx
  obtain ⟨agent, hagent, hmem⟩ := List.mem_flatMap.1 hx
  split at hmem
  · exact absurd hmem (List.not_mem_nil _)
  · obtain ⟨s, _, hs⟩ := List.mem_map.1 hmem
    subst hs
    exact hagent

theorem collect_snoc (env : Env) (l : List (String × Agent × AgentService))
    (x : String × Agent × AgentService) :
    (l ++ [x]).foldl (collectStep env) ([], [])
      = collectStep env (l.foldl (collectStep env) ([], [])) x := by
  simp [List.foldl_append]

theorem collect_nodup (env : Env) (l : List (String × Agent × AgentService)) :
    (((l.foldl (collectStep env) ([], [])).1.map Prod.fst).Nodup)
      ∧ (((l.foldl (collectStep env) ([], [])).2.map Prod.fst).Nodup) := by
  induction l using List.reverseRecOn with
  | nil => exact ⟨List.nodup_nil, List.nodup_nil⟩
  | append_singleton l x ih =>
    rw [collect_snoc]
    exact ⟨nodup_keys_mapSet _ _ _ ih.1, nodup_keys_mapSet _ _ _ ih.2⟩

theorem collect_added_sound (env : Env) (l : List (String × Agent × AgentService))
    (id k : String) (h : mapGet (l.foldl (collectStep env) ([], [])).1 id = some k) :
    ∃ x ∈ l, x.1 = k ∧ x.2.2.ID = id := by
  induction l using List.reverseRecOn with
  | nil => simp [mapGet] at h
  | append_singleton l x ih =>
    rw [collect_snoc] at h
    by_cases hid : id = x.2.2.ID
    · subst hid
      simp only [collectStep, mapGet_mapSet_same, Option.some.injEq] at h
      exact ⟨x, by simp, h, rfl⟩
    · simp only [collectStep, mapGet_mapSet_ne _ _ _ _ hid] at h
      obtain ⟨y, hy, hyk⟩ := ih h
      exact ⟨y, List.mem_append_left _ hy, hyk⟩

theorem collect_added_complete (env : Env) (l : List (String × Agent × AgentService))
    (hnodup : (l.map (fun x => x.2.2.ID)).Nodup) :
    ∀ x ∈ l, mapGet (l.foldl (collectStep env) ([], [])).1 x.2.2.ID = some x.1 := by
  induction l using List.reverseRecOn with
  | nil => intro x hx; exact absurd hx (List.not_mem_nil _)
  | append_singleton l y ih =>
    intro x hx
    rw [collect_snoc]
    simp only [List.map_append, List.map_cons, List.map_nil] at hnodup
    have hparts := List.nodup_append.1 hnodup
    rcases List.mem_append.1 hx with hxl | hxy
    · have hne : x.2.2.ID ≠ y.2.2.ID := by
        intro heq
        exact hparts.2.2 (List.mem_map.2 ⟨x, hxl, rfl⟩) (List.mem_singleton.2 heq)
      simp only [collectStep, mapGet_mapSet_ne _ _ _ _ hne]
      exact ih hparts.1 x hxl
    · rw [List.mem_singleton.1 hxy]
      simp only [collectStep, mapGet_mapSet_same]

theorem collect_registered_sound (env : Env) (l : List (String × Agent × AgentService))
    (uid : String) (ids : List String)
    (h : mapGet (l.foldl (collectStep env) ([], [])).2 uid = some ids) :
    ids ≠ [] ∧ ∀ id ∈ ids, ∃ x ∈ l, x.2.2.ID = id ∧ uidOf env x = uid := by
  induction l using List.reverseRecOn generalizing ids with
  | nil => simp [mapGet] at h
  | append_singleton l y ih =>
    rw [collect_snoc] at h
    by_cases hu : uid = uidOf env y
    · subst hu
      simp only [collectStep, mapGet_mapSet_same, Option.some.injEq] at h
      subst h
      refine ⟨by simp, ?_⟩
      intro id hid
      rcases List.mem_append.1 hid with hold | hnew
      · cases hget : mapGet (l.foldl (collectStep env) ([], [])).2 (uidOf env y) with
        | none => simp [hget] at hold
        | some ids0 =>
          simp only [hget, Option.getD_some] at hold
          obtain ⟨x, hx, hxid⟩ := (ih ids0 hget).2 id hold
          exact ⟨x, List.mem_append_left _ hx, hxid⟩
      · exact ⟨y, by simp, (List.mem_singleton.1 hnew).symm, rfl⟩
    · simp only [collectStep, mapGet_mapSet_ne _ _ _ _ hu] at h
      refine ⟨(ih ids h).1, ?_⟩
      intro id hid
      obtain ⟨x, hx, hxid⟩ := (ih ids h).2 id hid
      exact ⟨x, List.mem_append_left _ hx, hxid⟩

theorem collect_registered_complete (env : Env) (l : List (String × Agent × AgentService)) :
    ∀ x ∈ l, ∃ ids, mapGet (l.foldl (collectStep env) ([], [])).2 (uidOf env x) = some ids
      ∧ x.2.2.ID ∈ ids := by
  induction l using List.reverseRecOn with
  | nil => intro x hx; exact absurd hx (List.not_mem_nil _)
  | append_singleton l y ih =>
    intro x hx
    rw [collect_snoc]
    rcases List.mem_append.1 hx with hxl | hxy
    · obtain ⟨ids, hget, hmem⟩ := ih x hxl
      by_cases hu : uidOf env x = uidOf env y
      · refine ⟨ids ++ [y.2.2.ID], ?_, List.mem_append_left _ hmem⟩
        simp only [collectStep, hu, mapGet_mapSet_same]
        rw [hu] at hget
        simp [hget]
      · refine ⟨ids, ?_, hmem⟩
        simp only [collectStep, mapGet_mapSet_ne _ _ _ _ hu]
        exact hget
    · rw [List.mem_singleton.1 hxy]
      exact ⟨(mapGet (l.foldl (collectStep env) ([], [])).2 (uidOf env y)).getD []
        ++ [y.2.2.ID], by simp only [collectStep, mapGet_mapSet_same], by simp⟩

theorem collect_registered_none_iff (env : Env) (l : List (String × Agent × AgentService))
    (uid : String) :
    mapGet (l.foldl (collectStep env) ([], [])).2 uid = none ↔ ∀ x ∈ l, uidOf env x ≠ uid := by
  constructor
  · intro hnone x hx heq
    obtain ⟨ids, hget, _⟩ := collect_registered_complete env l x hx
    rw [heq, hnone] at hget
    exact absurd hget (by simp)
  · intro hall
    cases hget : mapGet (l.foldl (collectStep env) ([], [])).2 uid with
    | none => rfl
    | some ids =>
      obtain ⟨hne, hsound⟩ := collect_registered_sound env l uid ids hget
      cases ids with
      | nil => exact absurd rfl hne
      | cons id rest =>
        obtain ⟨x, hx, _, hxu⟩ := hsound id (List.mem_cons_self id rest)
        exact absurd hxu (hall x hx)

theorem currentAddedServices_none_iff (svcs : List Service) (uid : String) :
    mapGet (currentAddedServices svcs) uid = none
      ↔ ∀ svc ∈ svcs, isRegisterEnabled svc = true → svc.UID ≠ uid := by
  have gen : ∀ (svcs : List Service) (init : List (String × String)),
      mapGet (svcs.foldl (fun current service =>
          if ¬ isRegisterEnabled service then current
          else mapSet current service.UID service.Name) init) uid = none
        ↔ mapGet init uid = none
          ∧ ∀ svc ∈ svcs, isRegisterEnabled svc = true → svc.UID ≠ uid := by
    intro svcs
    induction svcs with
    | nil => intro init; simp
    | cons svc rest ih =>
      intro init
      simp only [List.foldl_cons, ih, List.mem_cons, forall_eq_or_imp]
      by_cases hen : isRegisterEnabled svc = true
      · simp only [hen, not_true_eq_false, if_false, true_implies]
        by_cases hu : uid = svc.UID
        · subst hu
          simp [mapGet_mapSet_same]
        · have hu2 : ¬ svc.UID = uid := fun h => hu h.symm
          simp only [mapGet_mapSet_ne _ _ _ _ hu, ne_eq, hu2, not_false_eq_true, true_and]
      · simp [hen]
  unfold currentAddedServices
  rw [gen svcs []]
  simp [mapGet]

/-! ### Orphan removal -/

theorem deregisterListed_fold_calls (env : Env) (agents : List (String × Agent))
    (added : List (String × String)) (ids : List String) (w : World) :
    (ids.foldl (deregisterListed env agents added) w).calls
      = w.calls ++ ids.map (fun id =>
          Call.deregister (mapGet agents ((mapGet added id).getD "")) id) := by
  induction ids generalizing w with
  | nil => simp
  | cons id rest ih =>
    simp only [List.foldl_cons, ih, List.map_cons]
    have hone : (deregisterListed env agents added w id).calls
        = w.calls ++ [Call.deregister (mapGet agents ((mapGet added id).getD "")) id] := by
      unfold deregisterListed adapterDeregister
      cases env.callOk w.calls.length <;> rfl
    rw [hone]
    simp

theorem clean_fold_calls (env : Env) (agents : List (String × Agent))
    (added : List (String × String)) (registered : List (String × List String))
    (current : List (String × String)) (w : World) :
    (registered.foldl (fun w entry =>
        match mapGet current entry.1 with
        | some _ => w
        | none => entry.2.foldl (deregisterListed env agents added) w) w).calls
      = w.calls ++ cleanCalls agents added registered current := by
  induction registered generalizing w with
  | nil => simp [cleanCalls]
  | cons entry rest ih =>
    simp only [List.foldl_cons, ih, cleanCalls, List.flatMap_cons]
    cases mapGet current entry.1 with
    | some name => simp
    | none => simp [deregisterListed_fold_calls]

theorem Clean_calls (env : Env) (w : World) (agents : List (String × Agent))
    (svcs : List Service) (hcache : cacheConsulAgent env = (agents, none))
    (hlist : env.listServices = .ok svcs) :
    (Clean env w).1 = none
      ∧ (Clean env w).2.calls
        = w.calls ++ cleanCalls agents (getAddedConsulServices env agents).1
            (getAddedConsulServices env agents).2 (currentAddedServices svcs) := by
  unfold Clean
  simp only [hcache, hlist, true_and]
  exact clean_fold_calls env agents _ _ _ w

theorem mem_cleanCalls (env : Env) (agents : List (String × Agent)) (svcs : List Service)
    (c : Call) :
    c ∈ cleanCalls agents (getAddedConsulServices env agents).1
        (getAddedConsulServices env agents).2 (currentAddedServices svcs)
      ↔ ∃ x ∈ ownedListing env agents,
          (∀ svc ∈ svcs, isRegisterEnabled svc = true → svc.UID ≠ uidOf env x)
            ∧ c = Call.deregister
                (mapGet agents ((mapGet (getAddedConsulServices env agents).1 x.2.2.ID).getD ""))
                x.2.2.ID := by
  rw [getAddedConsulServices_eq]
  unfold cleanCalls
  simp only [List.mem_flatMap]
  constructor
  · rintro ⟨entry, hentry, hc⟩
    obtain ⟨uid, ids⟩ := entry
    have hget := mapGet_of_mem_nodup _ uid ids (collect_nodup env _).2 hentry
    cases hcur : mapGet (currentAddedServices svcs) uid with
    | some name => simp [hcur] at hc
    | none =>
      simp only [hcur, List.mem_map] at hc
      obtain ⟨id, hid, hcid⟩ := hc
      obtain ⟨x, hx, hxid, hxu⟩ := (collect_registered_sound env _ uid ids hget).2 id hid
      refine ⟨x, hx, ?_, ?_⟩
      · rw [hxu]
        exact (currentAddedServices_none_iff svcs uid).1 hcur
      · rw [hxid]
        exact hcid.symm
  · rintro ⟨x, hx, horphan, hc⟩
    obtain ⟨ids, hget, hmem⟩ := collect_registered_complete env _ x hx
    refine ⟨(uidOf env x, ids), mem_keys_of_mapGet _ _ _ hget, ?_⟩
    have hcur := (currentAddedServices_none_iff svcs (uidOf env x)).2 horphan
    simp only [hcur, List.mem_map]
    exact ⟨x.2.2.ID, hmem, hc.symm⟩

/-- C5, amended: when no identity is listed as owned twice (by two agents), and the agents
and the workloads can be listed, `Clean` returns no error and, whatever deregister calls
fail, makes the same deregister calls: one on every owned entry whose uid tag is not the uid of
an enabled workload, on the agent that listed the entry; none on an entry whose uid tag is the
uid of an enabled workload; and every call is on a listed owned entry and its agent. -/
theorem Clean_removes_orphans (env : Env) (w : World) (agents : List (String × Agent))
    (svcs : List Service) (hcache : cacheConsulAgent env = (agents, none))
    (hlist : env.listServices = .ok svcs)
    (huniq : ((ownedListing env agents).map (fun x => x.2.2.ID)).Nodup) :
    ∃ newCalls : List Call,
      (∀ callOk : Nat → Bool,
          (Clean { env with callOk := callOk } w).1 = none
            ∧ (Clean { env with callOk := callOk } w).2.calls = w.calls ++ newCalls)
        ∧ (∀ x ∈ ownedListing env agents,
            (∀ svc ∈ svcs, isRegisterEnabled svc = true → svc.UID ≠ uidOf env x) →
              Call.deregister (some x.2.1) x.2.2.ID ∈ newCalls)
        ∧ (∀ x ∈ ownedListing env agents,
            (∃ svc ∈ svcs, isRegisterEnabled svc = true ∧ svc.UID = uidOf env x) →
              ∀ agent, Call.deregister agent x.2.2.ID ∉ newCalls)
        ∧ (∀ c ∈ newCalls, ∃ x ∈ ownedListing env agents,
            c = Call.deregister (some x.2.1) x.2.2.ID) := by
  have hagent : ∀ x ∈ ownedListing env agents,
      mapGet agents ((mapGet (getAddedConsulServices env agents).1 x.2.2.ID).getD "")
        = some x.2.1 := by
    intro x hx
    rw [getAddedConsulServices_eq, collect_added_complete env _ huniq x hx]
    simp only [Option.getD_some]
    apply mapGet_of_mem_nodup
    · have := cacheConsulAgent_nodup env
      rw [hcache] at this
      exact this
    · exact mem_agents_of_owned env agents x hx
  have hsame : ∀ x ∈ ownedListing env agents, ∀ y ∈ ownedListing env agents,
      x.2.2.ID = y.2.2.ID → x = y := by
    intro x hx y hy hxy
    exact List.inj_on_of_nodup_map huniq hx hy hxy
  refine ⟨cleanCalls agents (getAddedConsulServices env agents).1
    (getAddedConsulServices env agents).2 (currentAddedServices svcs), ?_, ?_, ?_, ?_⟩
  · intro callOk
    exact Clean_calls { env with callOk := callOk } w agents svcs hcache hlist
  · intro x hx horphan
    rw [mem_cleanCalls]
    exact ⟨x, hx, horphan, by rw [hagent x hx]⟩
  · rintro x hx ⟨svc, hsvc, hen, huid⟩ agent hmem
    rw [mem_cleanCalls] at hmem
    obtain ⟨y, hy, horphan, hc⟩ := hmem
    injection hc with _ hid
    have hxy := hsame x hx y hy hid
    subst hxy
    exact horphan svc hsvc hen huid
  · intro c hc
    rw [mem_cleanCalls] at hc
    obtain ⟨x, hx, _, hcx⟩ := hc
    exact ⟨x, hx, by rw [hcx, hagent x hx]⟩

/-- One agent lists an entry of the enabled `web` workload, an entry of a workload that is
gone, and an entry without the ownership tag: only the second is deregistered. -/
theorem Clean_removes_orphans_witness :
    cacheConsulAgent cleanEnv = ([("localhost", { Name := "", PodIP := "" })], none)
      ∧ cleanEnv.listServices = .ok [exampleWeb]
      ∧ ((ownedListing cleanEnv [("localhost", { Name := "", PodIP := "" })]).map
          (fun x => x.2.2.ID)).Nodup
      ∧ Call.deregister (some { Name := "", PodIP := "" }) "old-u-0-10.0.0.5-30080"
          ∈ (Clean cleanEnv emptyWorld).2.calls
      ∧ Call.deregister (some { Name := "", PodIP := "" }) "web-abc123-10.0.0.5-30080"
          ∉ (Clean cleanEnv emptyWorld).2.calls := by
  have hnodup : ((ownedListing cleanEnv [("localhost", { Name := "", PodIP := "" })]).map
      (fun x => x.2.2.ID)).Nodup := by decide
  obtain ⟨newCalls, hcalls, horphan, henabled, _⟩ :=
    Clean_removes_orphans cleanEnv emptyWorld [("localhost", { Name := "", PodIP := "" })]
      [exampleWeb] rfl rfl hnodup
  have hlog : (Clean cleanEnv emptyWorld).2.calls = emptyWorld.calls ++ newCalls :=
    (hcalls cleanEnv.callOk).2
  have hlog2 : (Clean cleanEnv emptyWorld).2.calls = newCalls := by
    rw [hlog]; rfl
  refine ⟨rfl, rfl, hnodup, ?_, ?_⟩
  · rw [hlog2]
    exact horphan ("localhost", { Name := "", PodIP := "" },
      { ID := "old-u-0-10.0.0.5-30080", Tags := ["kubernetes", "uid:u-0"] }) (by decide)
      (by decide)
  · rw [hlog2]
    exact henabled ("localhost", { Name := "", PodIP := "" },
      { ID := "web-abc123-10.0.0.5-30080", Tags := ["kubernetes", "uid:abc123"] }) (by decide)
      ⟨exampleWeb, by decide, by decide, by decide⟩ _

/-- C5 as stated fails when two agents list the same identity: the agent of `node-1` lists it
with the uid tag of a workload that is gone, the agent of `node-2` with the uid tag of the
enabled workload `api-v2`. The only call of `Clean` deregisters the entry of the enabled
workload on the agent of `node-2`; the orphan on the agent of `node-1` is not deregistered. -/
theorem Clean_shared_identity :
    cacheConsulAgent sharedEnv
        = ([("node-1", { Name := "10.0.0.5", PodIP := "" }),
            ("node-2", { Name := "10.0.0.6", PodIP := "" })], none)
      ∧ ownedListing sharedEnv (cacheConsulAgent sharedEnv).1
        = [("node-1", { Name := "10.0.0.5", PodIP := "" },
              { ID := "api-v2-u1-192.0.2.7-80", Tags := ["kubernetes", "uid:v2-u1"] }),
           ("node-2", { Name := "10.0.0.6", PodIP := "" },
              { ID := "api-v2-u1-192.0.2.7-80", Tags := ["kubernetes", "uid:u1"] })]
      ∧ sharedEnv.GetConsulServiceTag ["kubernetes", "uid:v2-u1"] "uid" = "v2-u1"
      ∧ sharedEnv.GetConsulServiceTag ["kubernetes", "uid:u1"] "uid" = "u1"
      ∧ sharedEnv.listServices = .ok [exampleApiV2]
      ∧ isRegisterEnabled exampleApiV2 = true ∧ exampleApiV2.UID = "u1"
      ∧ Clean sharedEnv emptyWorld
        = (none, { allAddedServices := [], registry := [],
                   calls := [Call.deregister (some { Name := "10.0.0.6", PodIP := "" })
                     "api-v2-u1-192.0.2.7-80"] }) :=
  ⟨by decide, by decide, by decide, by decide, rfl, by decide, rfl, by decide⟩

/-! ### Node removal -/

theorem containsChars_iff (s substr : List Char) :
    containsChars s substr = true ↔ substr <:+: s := by
  induction s with
  | nil =>
    simp only [containsChars, List.isEmpty_iff]
    constructor
    · intro h; subst h; exact List.infix_refl []
    · intro h; exact List.eq_nil_of_infix_nil h
  | cons c cs ih =>
    simp only [containsChars, Bool.or_eq_true, List.isPrefixOf_iff_prefix, ih]
    constructor
    · rintro (h | h)
      · exact h.isInfix
      · exact h.trans (List.infix_cons (List.infix_refl cs))
    · intro h
      rcases List.infix_cons_iff.1 h with h | h
      · exact Or.inl h
      · exact Or.inr h

theorem stringsContains_identity (name uid address portText : String) :
    stringsContains (name ++ "-" ++ uid ++ "-" ++ address ++ "-" ++ portText)
      ("-" ++ address ++ "-") = true := by
  unfold stringsContains
  rw [containsChars_iff]
  refine ⟨(name ++ "-" ++ uid).data, portText.data, ?_⟩
  simp [String.data_append]

theorem collect_added_some (env : Env) (l : List (String × Agent × AgentService)) :
    ∀ x ∈ l, ∃ k, mapGet (l.foldl (collectStep env) ([], [])).1 x.2.2.ID = some k := by
  induction l using List.reverseRecOn with
  | nil => intro x hx; exact absurd hx (List.not_mem_nil _)
  | append_singleton l y ih =>
    intro x hx
    rw [collect_snoc]
    by_cases hid : x.2.2.ID = y.2.2.ID
    · exact ⟨y.1, by simp only [collectStep, hid, mapGet_mapSet_same]⟩
    · rcases List.mem_append.1 hx with hxl | hxy
      · obtain ⟨k, hk⟩ := ih x hxl
        exact ⟨k, by simp only [collectStep, mapGet_mapSet_ne _ _ _ _ hid, hk]⟩
      · rw [List.mem_singleton.1 hxy] at hid
        exact absurd rfl hid

theorem nodeDeleteLoop_calls (env : Env) (agents : List (String × Agent))
    (added : List (String × String)) (node : Node) (w : World) :
    (nodeDeleteLoop env agents added node w).calls
      = w.calls ++ nodeDeleteCalls agents added node := by
  have inner : ∀ (entry : String × String) (addresses : List NodeAddress) (w : World),
      (addresses.foldl (fun w address =>
        if stringsContains entry.1 ("-" ++ address.Address ++ "-") then
          match adapterDeregister env (mapGet agents entry.2) entry.1 w with
          | (false, w1) => w1
          | (true, w1) => { w1 with allAddedServices := setDelete w1.allAddedServices entry.1 }
        else w) w).calls
        = w.calls ++ (addresses.filter (fun address =>
            stringsContains entry.1 ("-" ++ address.Address ++ "-"))).map
              (fun _ => Call.deregister (mapGet agents entry.2) entry.1) := by
    intro entry addresses
    induction addresses with
    | nil => intro w; simp
    | cons address rest ih =>
      intro w
      simp only [List.foldl_cons, ih, List.filter_cons]
      by_cases hc : stringsContains entry.1 ("-" ++ address.Address ++ "-") = true
      · simp only [hc, if_true, List.map_cons]
        unfold adapterDeregister
        cases env.callOk w.calls.length <;> simp
      · simp only [hc, if_false, Bool.false_eq_true]
  unfold nodeDeleteLoop nodeDeleteCalls
  induction added generalizing w with
  | nil => simp
  | cons entry rest ih =>
    simp only [List.foldl_cons, ih, List.flatMap_cons, inner]
    simp

theorem mem_nodeDeleteCalls (agents : List (String × Agent)) (added : List (String × String))
    (node : Node) (c : Call) :
    c ∈ nodeDeleteCalls agents added node
      ↔ ∃ entry ∈ added, ∃ address ∈ node.Addresses,
          stringsContains entry.1 ("-" ++ address.Address ++ "-") = true
            ∧ c = Call.deregister (mapGet agents entry.2) entry.1 := by
  unfold nodeDeleteCalls
  simp only [List.mem_flatMap, List.mem_map, List.mem_filter]
  constructor
  · rintro ⟨entry, hentry, address, ⟨haddr, hc⟩, hcall⟩
    exact ⟨entry, hentry, address, haddr, hc, hcall.symm⟩
  · rintro ⟨entry, hentry, address, haddr, hc, hcall⟩
    exact ⟨entry, hentry, address, ⟨haddr, hc⟩, hcall.symm⟩

/-- C6, amended: when the agents can be resolved, `nodeDelete` returns no error and
calls deregister only on listed owned entries whose identity contains `-a-` for an address
`a` of the removed node, on the agent that listed the identity, and on each such entry; an
identity that contains no such text gets no call; and the identity `createConsulService`
builds for a target address of the node does contain it. -/
theorem nodeDelete_scope (env : Env) (node : Node) (w : World)
    (agents : List (String × Agent)) (hcache : cacheConsulAgent env = (agents, none)) :
    ∃ newCalls : List Call,
      (nodeDelete env node w).1 = none
        ∧ (nodeDelete env node w).2.calls = w.calls ++ newCalls
        ∧ (∀ c ∈ newCalls, ∃ x ∈ ownedListing env agents, ∃ address ∈ node.Addresses,
            stringsContains x.2.2.ID ("-" ++ address.Address ++ "-") = true
              ∧ c = Call.deregister (some x.2.1) x.2.2.ID)
        ∧ (∀ x ∈ ownedListing env agents, ∀ address ∈ node.Addresses,
            stringsContains x.2.2.ID ("-" ++ address.Address ++ "-") = true →
              ∃ agent, Call.deregister agent x.2.2.ID ∈ newCalls)
        ∧ (∀ id, (∀ address ∈ node.Addresses,
              stringsContains id ("-" ++ address.Address ++ "-") = false) →
            ∀ agent, Call.deregister agent id ∉ newCalls)
        ∧ (∀ svc port e, ∀ address ∈ node.Addresses,
            createConsulService env.cfg svc address.Address port = .ok e →
              stringsContains e.ID ("-" ++ address.Address ++ "-") = true) := by
  have hkeys : (agents.map Prod.fst).Nodup := by
    have := cacheConsulAgent_nodup env
    rw [hcache] at this
    exact this
  refine ⟨nodeDeleteCalls agents (getAddedConsulServices env agents).1 node, ?_, ?_, ?_, ?_,
    ?_, ?_⟩
  · unfold nodeDelete
    simp only [hcache]
  · unfold nodeDelete
    simp only [hcache]
    exact nodeDeleteLoop_calls env agents _ node _
  · intro c hc
    rw [mem_nodeDeleteCalls, getAddedConsulServices_eq] at hc
    obtain ⟨entry, hentry, address, haddr, hcontains, hcall⟩ := hc
    obtain ⟨id, k⟩ := entry
    have hget := mapGet_of_mem_nodup _ id k (collect_nodup env _).1 hentry
    obtain ⟨x, hx, hxk, hxid⟩ := collect_added_sound env _ id k hget
    refine ⟨x, hx, address, haddr, by rw [hxid]; exact hcontains, ?_⟩
    rw [hcall, hxid]
    simp only [← hxk]
    rw [mapGet_of_mem_nodup agents x.1 x.2.1 hkeys (mem_agents_of_owned env agents x hx)]
  · intro x hx address haddr hcontains
    obtain ⟨k, hk⟩ := collect_added_some env _ x hx
    refine ⟨mapGet agents k, ?_⟩
    rw [mem_nodeDeleteCalls, getAddedConsulServices_eq]
    exact ⟨(x.2.2.ID, k), mem_keys_of_mapGet _ _ _ hk, address, haddr, hcontains, rfl⟩
  · intro id hnone agent hmem
    rw [mem_nodeDeleteCalls] at hmem
    obtain ⟨entry, _, address, haddr, hcontains, hcall⟩ := hmem
    injection hcall with _ hid
    rw [← hid, hnone address haddr] at hcontains
    exact absurd hcontains (by simp)
  · intro svc port e address _ he
    obtain ⟨_, _, hid, _⟩ := createConsulService_ok env.cfg svc address.Address port e he
    rw [hid]
    exact stringsContains_identity _ _ _ _

/-- Removing `exampleNode` (addresses `node-1` and `10.0.0.5`): the entry of `web` at
`10.0.0.5` is deregistered, the entry of `queue-worker-api` at `10.0.0.2` is not. -/
theorem nodeDelete_scope_witness :
    cacheConsulAgent scopeEnv = ([("localhost", { Name := "", PodIP := "" })], none)
      ∧ (∃ agent, Call.deregister agent "web-abc123-10.0.0.5-30080"
          ∈ (nodeDelete scopeEnv exampleNode emptyWorld).2.calls)
      ∧ (∀ agent, Call.deregister agent "queue-worker-api-u1-10.0.0.2-80"
          ∉ (nodeDelete scopeEnv exampleNode emptyWorld).2.calls) := by
  obtain ⟨newCalls, _, hcalls, _, hmatch, hnone, _⟩ :=
    nodeDelete_scope scopeEnv exampleNode emptyWorld
      [("localhost", { Name := "", PodIP := "" })] rfl
  have hlog : (nodeDelete scopeEnv exampleNode emptyWorld).2.calls = newCalls := by
    rw [hcalls]; rfl
  refine ⟨rfl, ?_, ?_⟩
  · rw [hlog]
    exact hmatch ("localhost", { Name := "", PodIP := "" },
      { ID := "web-abc123-10.0.0.5-30080", Tags := ["kubernetes", "uid:abc123"] }) (by decide)
      { Type_ := "InternalIP", Address := "10.0.0.5" } (by decide) (by decide)
  · rw [hlog]
    exact hnone "queue-worker-api-u1-10.0.0.2-80" (by decide)

/-- C6 as stated fails: the removed node `worker` has the addresses `worker` (its host name)
and `10.0.0.1`; the entry of the workload `queue-worker-api` was built for the target address
`10.0.0.2`, which is not an address of the node, and is deregistered all the same, because
its identity contains `-worker-`. -/
theorem nodeDelete_hits_other_node :
    (createConsulService scopeEnv.cfg exampleQueue "10.0.0.2" 80).toOption.map
        (fun e => (e.ID, e.Address))
        = some ("queue-worker-api-u1-10.0.0.2-80", "10.0.0.2")
      ∧ "10.0.0.2" ∉ exampleWorkerNode.Addresses.map (fun address => address.Address)
      ∧ ownedListing scopeEnv (cacheConsulAgent scopeEnv).1
        = [("localhost", { Name := "", PodIP := "" },
              { ID := "web-abc123-10.0.0.5-30080", Tags := ["kubernetes", "uid:abc123"] }),
           ("localhost", { Name := "", PodIP := "" },
              { ID := "queue-worker-api-u1-10.0.0.2-80", Tags := ["kubernetes", "uid:u1"] })]
      ∧ nodeDelete scopeEnv exampleWorkerNode emptyWorld
        = (none, { allAddedServices := [], registry := [],
                   calls := [Call.deregister (some { Name := "", PodIP := "" })
                     "queue-worker-api-u1-10.0.0.2-80"] }) :=
  ⟨by decide, by decide, by decide, by decide⟩

/-! ### Full reconcile -/

theorem forEachErr_filter {α : Type} (f g : α → World → Option String × World)
    (p : α → Bool) (xs : List α)
    (hyes : ∀ x ∈ xs, p x = true → ∀ w, f x w = g x w)
    (hno : ∀ x ∈ xs, p x = false → ∀ w, f x w = (none, w)) (w : World) :
    forEachErr f xs w = forEachErr g (xs.filter p) w := by
  induction xs generalizing w with
  | nil => rfl
  | cons x xs ih =>
    have ihx := fun w1 => ih (fun y hy => hyes y (List.mem_cons_of_mem x hy))
      (fun y hy => hno y (List.mem_cons_of_mem x hy)) w1
    cases hp : p x with
    | true =>
      simp only [List.filter_cons, hp, if_true, forEachErr,
        hyes x (List.mem_cons_self x xs) hp w]
      rcases g x w with ⟨_ | err, w1⟩
      · exact ihx w1
      · rfl
    | false =>
      simp only [List.filter_cons, hp, forEachErr, hno x (List.mem_cons_self x xs) hp w]
      exact ihx w

theorem registerOne_only_registers (env : Env) (svc : Service) (a : String) (w : World)
    (p : Int) (calls0 : List Call)
    (h : ∃ cs, w.calls = calls0 ++ cs ∧ ∀ c ∈ cs, ∃ agent e, c = Call.register agent e) :
    ∃ cs, (registerOne env svc a w p).calls = calls0 ++ cs
      ∧ ∀ c ∈ cs, ∃ agent e, c = Call.register agent e := by
  obtain ⟨cs, hcs, hall⟩ := h
  unfold registerOne
  split
  · exact ⟨cs, hcs, hall⟩
  · split
    · exact ⟨cs, hcs, hall⟩
    · rename_i e _ _
      have hext : ∀ c ∈ cs ++ [Call.register { Name := a, PodIP := "" } e],
          ∃ agent e1, c = Call.register agent e1 := by
        intro c hc
        rcases List.mem_append.1 hc with hc | hc
        · exact hall c hc
        · exact ⟨_, _, List.mem_singleton.1 hc⟩
      unfold adapterRegister
      cases env.callOk w.calls.length
      · exact ⟨_, by simp only [hcs, List.append_assoc], hext⟩
      · exact ⟨_, by simp only [hcs, List.append_assoc], hext⟩

theorem eventAddFunc_only_registers (env : Env) (svc : Service) (w : World)
    (calls0 : List Call)
    (h : ∃ cs, w.calls = calls0 ++ cs ∧ ∀ c ∈ cs, ∃ agent e, c = Call.register agent e) :
    ∃ cs, (eventAddFunc env svc w).2.calls = calls0 ++ cs
      ∧ ∀ c ∈ cs, ∃ agent e, c = Call.register agent e := by
  rw [eventAddFunc_world]
  exact registerAll_preserves
    (fun w1 => ∃ cs, w1.calls = calls0 ++ cs ∧ ∀ c ∈ cs, ∃ agent e, c = Call.register agent e)
    env svc _ _ (fun a p w1 _ _ h1 => registerOne_only_registers env svc a w1 p calls0 h1) w h

theorem forEachErr_only_registers (env : Env) (svcs : List Service) (w : World)
    (calls0 : List Call)
    (h : ∃ cs, w.calls = calls0 ++ cs ∧ ∀ c ∈ cs, ∃ agent e, c = Call.register agent e) :
    ∃ cs, (forEachErr (eventAddFunc env) svcs w).2.calls = calls0 ++ cs
      ∧ ∀ c ∈ cs, ∃ agent e, c = Call.register agent e := by
  induction svcs generalizing w with
  | nil => exact h
  | cons svc rest ih =>
    have hstep := eventAddFunc_only_registers env svc w calls0 h
    simp only [forEachErr]
    rcases hres : eventAddFunc env svc w with ⟨_ | err, w1⟩
    · rw [hres] at hstep
      exact ih w1 hstep
    · rw [hres] at hstep
      exact hstep

theorem syncService_missing (env : Env) (added : List (String × String))
    (registered : List (String × List String)) (svc : Service) (w : World)
    (hen : isRegisterEnabled svc = true) (ids : List String)
    (hids : mapGet registered svc.UID = some ids) :
    syncService env added registered svc w
      = forEachErr (fun _ => eventAddFunc env svc)
          (ids.filter (fun id => (mapGet added id).isNone)) w := by
  unfold syncService
  simp only [hen, not_true_eq_false, if_false, hids]
  apply forEachErr_filter
  · intro id _ hnone w1
    rw [Option.isNone_iff_eq_none] at hnone
    simp only [hnone]
  · intro id _ hsome w1
    cases hget : mapGet added id with
    | none => simp [hget] at hsome
    | some k => rfl

/-- C7: when the agents and the workloads can be listed, `Sync` is the register path run, in
listing order and up to its first error, on exactly the enabled workloads whose uid is the
uid tag of no listed owned entry; on an enabled workload whose uid is the uid tag of a listed
owned entry its loop body changes nothing; an identity listed under a uid is never missing
from the identity-to-agent map (were it missing, the register path would run once for it);
and every call `Sync` makes is a register call. -/
theorem Sync_reconciles (env : Env) (w : World) (agents : List (String × Agent))
    (svcs : List Service) (hcache : cacheConsulAgent env = (agents, none))
    (hlist : env.listServices = .ok svcs) :
    Sync env w = forEachErr (eventAddFunc env) (svcs.filter (needsRegistration env agents)) w
      ∧ (∀ svc w1, isRegisterEnabled svc = true →
          (∀ x ∈ ownedListing env agents, uidOf env x ≠ svc.UID) →
          syncService env (getAddedConsulServices env agents).1
            (getAddedConsulServices env agents).2 svc w1 = eventAddFunc env svc w1)
      ∧ (∀ svc w1, isRegisterEnabled svc = true →
          (∃ x ∈ ownedListing env agents, uidOf env x = svc.UID) →
          syncService env (getAddedConsulServices env agents).1
            (getAddedConsulServices env agents).2 svc w1 = (none, w1))
      ∧ (∀ uid ids, mapGet (getAddedConsulServices env agents).2 uid = some ids →
          ∀ id ∈ ids, (mapGet (getAddedConsulServices env agents).1 id).isSome = true)
      ∧ (∀ added registered svc w1 ids, isRegisterEnabled svc = true →
          mapGet registered svc.UID = some ids →
          syncService env added registered svc w1
            = forEachErr (fun _ => eventAddFunc env svc)
                (ids.filter (fun id => (mapGet added id).isNone)) w1)
      ∧ (∃ newCalls, (Sync env w).2.calls = w.calls ++ newCalls
          ∧ ∀ c ∈ newCalls, ∃ agent e, c = Call.register agent e) := by
  have hlisted : ∀ uid ids, mapGet (getAddedConsulServices env agents).2 uid = some ids →
      ∀ id ∈ ids, (mapGet (getAddedConsulServices env agents).1 id).isSome = true := by
    intro uid ids hget id hid
    rw [getAddedConsulServices_eq] at hget ⊢
    obtain ⟨x, hx, hxid, _⟩ := (collect_registered_sound env _ uid ids hget).2 id hid
    obtain ⟨k, hk⟩ := collect_added_some env _ x hx
    rw [← hxid, hk]
    rfl
  have hnew : ∀ svc w1, isRegisterEnabled svc = true →
      (∀ x ∈ ownedListing env agents, uidOf env x ≠ svc.UID) →
      syncService env (getAddedConsulServices env agents).1
        (getAddedConsulServices env agents).2 svc w1 = eventAddFunc env svc w1 := by
    intro svc w1 hen hnone
    have hget : mapGet (getAddedConsulServices env agents).2 svc.UID = none := by
      rw [getAddedConsulServices_eq]
      exact (collect_registered_none_iff env _ svc.UID).2 hnone
    unfold syncService
    simp only [hen, not_true_eq_false, if_false, hget]
  have hold : ∀ svc w1, isRegisterEnabled svc = true →
      (∃ x ∈ ownedListing env agents, uidOf env x = svc.UID) →
      syncService env (getAddedConsulServices env agents).1
        (getAddedConsulServices env agents).2 svc w1 = (none, w1) := by
    rintro svc w1 hen ⟨x, hx, hxu⟩
    obtain ⟨ids, hget, _⟩ : ∃ ids, mapGet (getAddedConsulServices env agents).2 svc.UID
        = some ids ∧ x.2.2.ID ∈ ids := by
      rw [getAddedConsulServices_eq, ← hxu]
      exact collect_registered_complete env _ x hx
    rw [syncService_missing env _ _ svc w1 hen ids hget]
    have hnil : ids.filter (fun id =>
        (mapGet (getAddedConsulServices env agents).1 id).isNone) = [] := by
      rw [List.filter_eq_nil_iff]
      intro id hid
      have := hlisted svc.UID ids hget id hid
      cases hk : mapGet (getAddedConsulServices env agents).1 id with
      | none => rw [hk] at this; exact absurd this (by simp)
      | some k => simp
    rw [hnil]
    rfl
  have hsync : Sync env w
      = forEachErr (eventAddFunc env) (svcs.filter (needsRegistration env agents)) w := by
    unfold Sync
    simp only [hcache, hlist]
    apply forEachErr_filter
    · intro svc _ hneeds w1
      unfold needsRegistration at hneeds
      simp only [Bool.and_eq_true, List.all_eq_true, decide_eq_true_eq] at hneeds
      exact hnew svc w1 hneeds.1 hneeds.2
    · intro svc _ hneeds w1
      by_cases hen : isRegisterEnabled svc = true
      · unfold needsRegistration at hneeds
        simp only [hen, Bool.true_and, List.all_eq_false, decide_eq_true_eq,
          not_not] at hneeds
        exact hold svc w1 hen hneeds
      · unfold syncService
        simp [hen]
  refine ⟨hsync, hnew, hold, hlisted, ?_, ?_⟩
  · intro added registered svc w1 ids hen hids
    exact syncService_missing env added registered svc w1 hen ids hids
  · rw [hsync]
    exact forEachErr_only_registers env _ w w.calls ⟨[], by simp, by simp⟩

/-- In `exampleEnv` no entry is listed and `Sync` registers `web` at `10.0.0.5`; in `scopeEnv`
the entries of both workloads are listed and `Sync` changes nothing. -/
theorem Sync_reconciles_witness :
    cacheConsulAgent exampleEnv = ([("localhost", { Name := "", PodIP := "" })], none)
      ∧ exampleEnv.listServices = .ok [exampleWeb]
      ∧ Sync exampleEnv emptyWorld = forEachErr (eventAddFunc exampleEnv) [exampleWeb] emptyWorld
      ∧ (Sync exampleEnv emptyWorld).2.calls
          = [Call.register { Name := "10.0.0.5", PodIP := "" } exampleWebEntry]
      ∧ Sync scopeEnv emptyWorld = (none, emptyWorld) := by
  have h1 := (Sync_reconciles exampleEnv emptyWorld
    [("localhost", { Name := "", PodIP := "" })] [exampleWeb] rfl rfl).1
  have hf1 : [exampleWeb].filter
      (needsRegistration exampleEnv [("localhost", { Name := "", PodIP := "" })])
        = [exampleWeb] := by decide
  rw [hf1] at h1
  have h2 := (Sync_reconciles scopeEnv emptyWorld
    [("localhost", { Name := "", PodIP := "" })] [exampleWeb, exampleQueue] rfl rfl).1
  have hf2 : [exampleWeb, exampleQueue].filter
      (needsRegistration scopeEnv [("localhost", { Name := "", PodIP := "" })]) = [] := by
    decide
  rw [hf2] at h2
  refine ⟨rfl, rfl, h1, ?_, h2⟩
  rw [h1]
  decide

/-! ### Deregister path on node-port workloads -/

theorem deregisterOne_keeps_out (env : Env) (svc : Service) (a : String) (w : World) (p : Int)
    (id : String) (h : id ∉ w.allAddedServices) :
    id ∉ (deregisterOne env svc a w p).allAddedServices := by
  unfold deregisterOne
  split
  · exact h
  · split
    · exact h
    · unfold adapterDeregister
      cases env.callOk w.calls.length
      · exact h
      · exact fun hmem => h ((mem_setDelete _ _ _).1 hmem).1

theorem deregisterOne_removes (env : Env) (hok : ∀ n, env.callOk n = true) (svc : Service)
    (a : String) (w : World) (p : Int) (e : AgentServiceRegistration)
    (he : createConsulService env.cfg svc a p = .ok e) :
    e.ID ∉ (deregisterOne env svc a w p).allAddedServices := by
  unfold deregisterOne
  simp only [he]
  split
  · assumption
  · simp only [adapterDeregister, hok]
    exact fun hmem => ((mem_setDelete _ _ _).1 hmem).2 rfl

/-- On a node-port workload, with deregister calls succeeding, the deregister path leaves in
the dedup set none of the identities of the addresses and ports the register path runs
over. -/
theorem eventDeleteFunc_removes_nodePort (env : Env) (hok : ∀ n, env.callOk n = true)
    (svc : Service) (w : World) (hen : isRegisterEnabled svc = true)
    (hnp : svc.Type_ = ServiceTypeNodePort) :
    ∀ a ∈ registerAddresses env svc, ∀ p ∈ tcpNodePorts svc, ∀ e,
      createConsulService env.cfg svc a p = .ok e →
        e.ID ∉ (eventDeleteFunc env svc w).2.allAddedServices := by
  intro a ha p hp e he
  have inner_keep : ∀ (b : String) (ps : List Int) (w : World),
      e.ID ∉ w.allAddedServices →
      e.ID ∉ (ps.foldl (deregisterOne env svc b) w).allAddedServices := by
    intro b ps
    induction ps with
    | nil => intro w hw; exact hw
    | cons q ps ih => intro w hw; exact ih _ (deregisterOne_keeps_out env svc b w q _ hw)
  have inner_removes : ∀ (ps : List Int), p ∈ ps → ∀ w : World,
      e.ID ∉ (ps.foldl (deregisterOne env svc a) w).allAddedServices := by
    intro ps
    induction ps with
    | nil => intro hmem; exact absurd hmem (List.not_mem_nil p)
    | cons q ps ih =>
      intro hmem w
      rcases List.mem_cons.1 hmem with rfl | hmem
      · exact inner_keep a ps _ (deregisterOne_removes env hok svc a w p e he)
      · exact ih hmem _
  have outer_keep : ∀ (ips : List String) (w : World), e.ID ∉ w.allAddedServices →
      e.ID ∉ (ips.foldl (fun w b => (tcpNodePorts svc).foldl (deregisterOne env svc b) w)
        w).allAddedServices := by
    intro ips
    induction ips with
    | nil => intro w hw; exact hw
    | cons b ips ih => intro w hw; exact ih _ (inner_keep b _ w hw)
  have outer_removes : ∀ (ips : List String), a ∈ ips → ∀ w : World,
      e.ID ∉ (ips.foldl (fun w b => (tcpNodePorts svc).foldl (deregisterOne env svc b) w)
        w).allAddedServices := by
    intro ips
    induction ips with
    | nil => intro hmem; exact absurd hmem (List.not_mem_nil a)
    | cons b ips ih =>
      intro hmem w
      rcases List.mem_cons.1 hmem with rfl | hmem
      · exact outer_keep ips _ (inner_removes _ hp w)
      · exact ih hmem _
  unfold registerAddresses at ha
  simp only [hen, not_true_eq_false, if_false, hnp, if_true] at ha
  unfold eventDeleteFunc
  simp only [hnp, if_true]
  by_cases hext : svc.ExternalIPs.length > 0
  · simp only [hext, if_true] at ha ⊢
    exact outer_removes _ ha w
  · simp only [hext, if_false] at ha ⊢
    cases hn : getNodesIPs env with
    | error err =>
      rw [hn] at ha
      exact absurd ha (List.not_mem_nil a)
    | ok ips =>
      rw [hn] at ha
      exact outer_removes _ ha w

/-! ### Parsing of the health port -/

theorem foldl_digits_none (cs : List Char) :
    cs.foldl (fun (acc : Option Nat) c =>
      match acc, digitValue c with
      | some n, some d => some (n * 10 + d)
      | _, _ => none) none = none := by
  induction cs with
  | nil => rfl
  | cons c cs ih => simpa using ih

theorem foldl_digits_some (cs : List Char) (n v : Nat) :
    cs.foldl (fun (acc : Option Nat) c =>
      match acc, digitValue c with
      | some n, some d => some (n * 10 + d)
      | _, _ => none) (some n) = some v
      ↔ (∀ c ∈ cs, '0'.toNat ≤ c.toNat ∧ c.toNat ≤ '9'.toNat)
        ∧ v = cs.foldl (fun n c => n * 10 + (c.toNat - '0'.toNat)) n := by
  induction cs generalizing n with
  | nil =>
    simp only [List.foldl_nil, Option.some.injEq, List.not_mem_nil, false_implies, implies_true,
      true_and]
    exact eq_comm
  | cons c cs ih =>
    simp only [List.foldl_cons, List.mem_cons, forall_eq_or_imp]
    by_cases hd : '0'.toNat ≤ c.toNat ∧ c.toNat ≤ '9'.toNat
    · have hdv : digitValue c = some (c.toNat - '0'.toNat) := by
        simp only [digitValue, hd, and_self, if_true]
      simp only [hdv, hd, and_self, true_and]
      exact ih _
    · have hdv : digitValue c = none := by
        simp only [digitValue, hd, if_false]
      simp only [hdv, hd, false_and, iff_false]
      rw [foldl_digits_none]
      simp

theorem parseDigits_eq_some_iff (cs : List Char) (v : Nat) :
    parseDigits cs = some v
      ↔ cs ≠ [] ∧ (∀ c ∈ cs, '0'.toNat ≤ c.toNat ∧ c.toNat ≤ '9'.toNat)
        ∧ v = decimalValue cs := by
  cases cs with
  | nil => simp [parseDigits]
  | cons c cs =>
    simp only [parseDigits, ne_eq, reduceCtorEq, not_false_eq_true, true_and, decimalValue]
    exact foldl_digits_some (c :: cs) 0 v

theorem ParseInt32_ok_iff (s : String) (n : Int) :
    ParseInt32 s = .ok n ↔ IsInt32Text s n := by
  unfold ParseInt32 IsInt32Text
  cases hs : s.data with
  | nil =>
    simp only [reduceCtorEq, false_iff, not_exists, not_and]
    intro digits hne _ hshape
    rcases hshape with ⟨h, _⟩ | ⟨h, _⟩ | ⟨h, _⟩
    · exact absurd h.symm hne
    · exact absurd h (by simp)
    · exact absurd h (by simp)
  | cons c cs =>
    simp only []
    by_cases hminus : c = '-'
    · subst hminus
      simp only [decide_True, or_true, if_true, not_true_eq_false, false_and, if_false, true_and]
      constructor
      · intro h
        cases hp : parseDigits cs with
        | none => rw [hp] at h; exact absurd h (by simp)
        | some un =>
          rw [hp] at h
          obtain ⟨hne, hdig, hval⟩ := (parseDigits_eq_some_iff cs un).1 hp
          simp only [] at h
          split at h
          · exact absurd h (by simp)
          · rename_i hrange
            injection h with h
            subst h
            refine ⟨cs, hne, hdig, Or.inr (Or.inr ⟨rfl, by rw [hval]⟩), ?_, ?_⟩ <;> omega
      · rintro ⟨digits, hne, hdig, hshape, hlo, hhi⟩
        rcases hshape with ⟨h, _⟩ | ⟨h, _⟩ | ⟨h, hn⟩
        · have hc := hdig '-' (by rw [← h]; exact List.mem_cons_self _ _)
          exact absurd hc (by decide)
        · injection h with h1 _
          exact absurd h1 (by decide)
        · injection h with _ h2
          subst h2
          have hp := (parseDigits_eq_some_iff cs (decimalValue cs)).2 ⟨hne, hdig, rfl⟩
          rw [hp]
          simp only []
          have hrange : ¬ decimalValue cs > 2147483648 := by omega
          simp only [hrange, if_false, hn]
    · simp only [hminus, decide_False, Bool.false_eq_true, not_false_eq_true, true_and,
        false_and, if_false, or_false]
      by_cases hplus : c = '+'
      · subst hplus
        simp only [if_true]
        constructor
        · intro h
          cases hp : parseDigits cs with
          | none => rw [hp] at h; exact absurd h (by simp)
          | some un =>
            rw [hp] at h
            obtain ⟨hne, hdig, hval⟩ := (parseDigits_eq_some_iff cs un).1 hp
            simp only [] at h
            split at h
            · exact absurd h (by simp)
            · rename_i hrange
              injection h with h
              subst h
              refine ⟨cs, hne, hdig, Or.inr (Or.inl ⟨rfl, by rw [hval]⟩), ?_, ?_⟩ <;> omega
        · rintro ⟨digits, hne, hdig, hshape, hlo, hhi⟩
          rcases hshape with ⟨h, _⟩ | ⟨h, hn⟩ | ⟨h, _⟩
          · have hc := hdig '+' (by rw [← h]; exact List.mem_cons_self _ _)
            exact absurd hc (by decide)
          · injection h with _ h2
            subst h2
            have hp := (parseDigits_eq_some_iff cs (decimalValue cs)).2 ⟨hne, hdig, rfl⟩
            rw [hp]
            simp only []
            have hrange : ¬ decimalValue cs ≥ 2147483648 := by omega
            simp only [hrange, if_false, hn]
          · injection h with h1 _
            exact absurd h1 (by decide)
      · simp only [hplus, if_false]
        constructor
        · intro h
          cases hp : parseDigits (c :: cs) with
          | none => rw [hp] at h; exact absurd h (by simp)
          | some un =>
            rw [hp] at h
            obtain ⟨hne, hdig, hval⟩ := (parseDigits_eq_some_iff (c :: cs) un).1 hp
            simp only [] at h
            split at h
            · exact absurd h (by simp)
            · rename_i hrange
              injection h with h
              subst h
              refine ⟨c :: cs, hne, hdig, Or.inl ⟨rfl, by rw [hval]⟩, ?_, ?_⟩ <;> omega
        · rintro ⟨digits, hne, hdig, hshape, hlo, hhi⟩
          rcases hshape with ⟨h, hn⟩ | ⟨h, _⟩ | ⟨h, _⟩
          · subst h
            have hp := (parseDigits_eq_some_iff (c :: cs) (decimalValue (c :: cs))).2
              ⟨hne, hdig, rfl⟩
            rw [hp]
            simp only []
            have hrange : ¬ decimalValue (c :: cs) ≥ 2147483648 := by omega
            simp only [hrange, if_false, hn]
          · injection h with h1 _
            exact absurd h1 hplus
          · injection h with h1 _
            exact absurd h1 hminus

theorem ParseInt32_error_iff (s : String) :
    (∃ err, ParseInt32 s = .error err) ↔ ¬ ∃ n, IsInt32Text s n := by
  constructor
  · rintro ⟨err, herr⟩ ⟨n, hn⟩
    rw [(ParseInt32_ok_iff s n).2 hn] at herr
    exact absurd herr (by simp)
  · intro hnone
    cases h : ParseInt32 s with
    | error err => exact ⟨err, rfl⟩
    | ok n => exact absurd ⟨n, (ParseInt32_ok_iff s n).1 h⟩ hnone

/-! ### Health-check descriptor -/

theorem append_ne_empty_left (s t : String) (h : s ≠ "") : s ++ t ≠ "" := by
  intro heq
  apply h
  apply String.ext
  have hdata := congrArg String.data heq
  rw [String.data_append] at hdata
  exact (List.append_eq_nil.1 hdata).1

theorem append_ne_empty_right (s t : String) (h : t ≠ "") : s ++ t ≠ "" := by
  intro heq
  apply h
  apply String.ext
  have hdata := congrArg String.data heq
  rw [String.data_append] at hdata
  exact (List.append_eq_nil.1 hdata).2

/-- The interval and the timeout `createConsulService` puts into the check. -/
theorem createConsulService_timing (cfg : Config) (svc : Service) (address : String)
    (port : Int) (e : AgentServiceRegistration)
    (h : createConsulService cfg svc address port = .ok e) :
    e.Check.Interval =
        (match mapGet svc.Annotations ConsulRegisterServiceHealthIntervalAnnotation with
        | some value => value ++ "s"
        | none => "10s")
      ∧ e.Check.Timeout =
        (match mapGet svc.Annotations ConsulRegisterServiceHealthTimeoutAnnotation with
        | some value => value ++ "s"
        | none => "90s") := by
  unfold createConsulService at h
  simp only [] at h
  split at h
  · exact absurd h (by simp)
  · injection h with h
    subst h
    constructor
    · simp only []
      split
      · rfl
      · split
        · rfl
        · split
          · split <;> rfl
          · rfl
    · simp only []
      split
      · rfl
      · split
        · rfl
        · split
          · split <;> rfl
          · rfl

/-- Which of the three fields of the check are empty: all three when there is no
`health.path` annotation and the `health.ttl` annotation is present with an empty value,
and all but one in every other case. -/
theorem createConsulService_check_fields (cfg : Config) (svc : Service) (address : String)
    (port : Int) (e : AgentServiceRegistration)
    (h : createConsulService cfg svc address port = .ok e) :
    (mapGet svc.Annotations ConsulRegisterServiceHealthCheckPathAnnotation = none →
        mapGet svc.Annotations ConsulRegisterServiceHealthTTLAnnotation = some "" →
        e.Check.HTTP = "" ∧ e.Check.TCP = "" ∧ e.Check.TTL = "")
      ∧ (¬ (mapGet svc.Annotations ConsulRegisterServiceHealthCheckPathAnnotation = none
            ∧ mapGet svc.Annotations ConsulRegisterServiceHealthTTLAnnotation = some "") →
          (e.Check.HTTP ≠ "" ∧ e.Check.TCP = "" ∧ e.Check.TTL = "")
            ∨ (e.Check.HTTP = "" ∧ e.Check.TCP ≠ "" ∧ e.Check.TTL = "")
            ∨ (e.Check.HTTP = "" ∧ e.Check.TCP = "" ∧ e.Check.TTL ≠ "")) := by
  obtain ⟨healthPort, _, _, _, _, _, hhttp, httl, htcp⟩ :=
    createConsulService_ok cfg svc address port e h
  have hurl : ∀ rest tail : String, "http://" ++ rest ++ ":" ++ tail ≠ "" := by
    intro rest tail
    rw [String.append_assoc, String.append_assoc]
    exact append_ne_empty_left _ _ (by decide)
  constructor
  · intro hpath httlA
    rw [hhttp, httl, htcp]
    simp [hpath, httlA]
  · intro hnot
    rw [hhttp, httl, htcp]
    cases hpath : mapGet svc.Annotations ConsulRegisterServiceHealthCheckPathAnnotation with
    | some path =>
      left
      simp only [and_self, and_true]
      rw [String.append_assoc]
      exact hurl _ _
    | none =>
      cases httlA : mapGet svc.Annotations ConsulRegisterServiceHealthTTLAnnotation with
      | some ttl =>
        right; right
        simp only [true_and]
        intro hempty
        exact hnot ⟨hpath, by rw [httlA, hempty]⟩
      | none =>
        cases htcpA : mapGet svc.Annotations ConsulRegisterServiceHealthTCPAnnotation with
        | some tcp =>
          by_cases hne : tcp = ""
          · left
            simp only [hne, ne_eq, not_true_eq_false, if_false, and_self, and_true]
            rw [String.append_assoc]
            exact hurl _ _
          · right; left
            simp only [ne_eq, hne, not_false_eq_true, if_true, and_true, true_and]
            exact append_ne_empty_left _ _ (append_ne_empty_right _ _ (by decide))
        | none =>
          left
          simp only [and_self, and_true]
          rw [String.append_assoc]
          exact hurl _ _

/-- C11: with a `health.ttl` annotation whose value is empty and no `health.path`
annotation, `createConsulService` succeeds and the HTTP, TCP and TTL fields of the check are
all empty. -/
theorem createConsulService_empty_ttl_check :
    (createConsulService exampleCfg exampleEmptyTTL "10.0.0.5" 30080).toOption.map
        (fun e => (e.Check.HTTP, e.Check.TCP, e.Check.TTL))
      = some ("", "", "") := by
  decide

/-! ### Unparsable health port -/

theorem createConsulService_error_of_port (cfg : Config) (svc : Service) (address : String)
    (port : Int) :
    (∃ err, createConsulService cfg svc address port = .error err)
      ↔ ∃ value, mapGet svc.Annotations ConsulRegisterServiceHealthPortAnnotation = some value
          ∧ ∃ err, ParseInt32 value = .error err := by
  unfold createConsulService
  simp only []
  cases hport : mapGet svc.Annotations ConsulRegisterServiceHealthPortAnnotation with
  | none => simp
  | some value =>
    cases hparse : ParseInt32 value with
    | error err => simp [hparse]
    | ok n => simp [hparse]

theorem createConsulService_total (cfg : Config) (svc : Service) (address : String)
    (port : Int) :
    (∃ err, createConsulService cfg svc address port = .error err)
      ∨ ∃ e, createConsulService cfg svc address port = .ok e := by
  cases h : createConsulService cfg svc address port with
  | error err => exact Or.inl ⟨err, rfl⟩
  | ok e => exact Or.inr ⟨e, rfl⟩

theorem eventAddFunc_error_none (env : Env) (svc : Service) (w : World) (a : String)
    (ha : a ∈ registerAddresses env svc) : (eventAddFunc env svc w).1 = none := by
  unfold registerAddresses at ha
  unfold eventAddFunc
  by_cases hen : isRegisterEnabled svc = true
  · simp only [hen, not_true_eq_false, if_false] at ha ⊢
    by_cases hnp : svc.Type_ = ServiceTypeNodePort
    · simp only [hnp, if_true] at ha ⊢
      by_cases hext : svc.ExternalIPs.length > 0
      · simp only [hext, if_true]
      · simp only [hext, if_false] at ha ⊢
        cases hn : getNodesIPs env with
        | error err =>
          rw [hn] at ha
          exact absurd ha (List.not_mem_nil a)
        | ok ips => rfl
    · simp only [hnp, if_false]
      split
      · split <;> rfl
      · rfl
  · simp [hen]

/-- C12: `createConsulService` returns an error exactly when the `health.port` annotation is
present and its value is not a base-10 integer in the signed 32-bit range, and returns an
entry in every other case; when the annotation is such an integer, that integer is the health
port of the check; and in the register path a failing address and port is skipped with the
state (dedup set, registry, call log) unchanged, and the path returns no error. -/
theorem createConsulService_error_iff (env : Env) (svc : Service) (address : String)
    (port : Int) :
    ((∃ err, createConsulService env.cfg svc address port = .error err)
        ↔ ∃ value, mapGet svc.Annotations ConsulRegisterServiceHealthPortAnnotation = some value
            ∧ ¬ ∃ n, IsInt32Text value n)
      ∧ ((¬ ∃ value,
            mapGet svc.Annotations ConsulRegisterServiceHealthPortAnnotation = some value
              ∧ ¬ ∃ n, IsInt32Text value n) →
          ∃ e, createConsulService env.cfg svc address port = .ok e)
      ∧ (∀ value n e,
          mapGet svc.Annotations ConsulRegisterServiceHealthPortAnnotation = some value →
          IsInt32Text value n → createConsulService env.cfg svc address port = .ok e →
            IsHealthPort svc port n
              ∧ e.Check.HTTP =
                (match mapGet svc.Annotations ConsulRegisterServiceHealthCheckPathAnnotation with
                | some path => "http://" ++ healthHostOf svc address ++ ":" ++ formatInt n ++ path
                | none =>
                  match mapGet svc.Annotations ConsulRegisterServiceHealthTTLAnnotation with
                  | some _ => ""
                  | none =>
                    match mapGet svc.Annotations ConsulRegisterServiceHealthTCPAnnotation with
                    | some tcp =>
                      if tcp ≠ "" then ""
                      else "http://" ++ healthHostOf svc address ++ ":" ++ formatInt n ++ "/"
                    | none => "http://" ++ healthHostOf svc address ++ ":" ++ formatInt n ++ "/")
              ∧ e.Check.TCP =
                (match mapGet svc.Annotations ConsulRegisterServiceHealthCheckPathAnnotation with
                | some _ => ""
                | none =>
                  match mapGet svc.Annotations ConsulRegisterServiceHealthTTLAnnotation with
                  | some _ => ""
                  | none =>
                    match mapGet svc.Annotations ConsulRegisterServiceHealthTCPAnnotation with
                    | some tcp =>
                      if tcp ≠ "" then healthHostOf svc address ++ ":" ++ formatInt n else ""
                    | none => ""))
      ∧ (∀ err, createConsulService env.cfg svc address port = .error err →
          ∀ w, registerOne env svc address w port = w
            ∧ (eventAddFunc env svc w).2 = w
            ∧ (address ∈ registerAddresses env svc → eventAddFunc env svc w = (none, w))) := by
  have hiff : (∃ err, createConsulService env.cfg svc address port = .error err)
      ↔ ∃ value, mapGet svc.Annotations ConsulRegisterServiceHealthPortAnnotation = some value
          ∧ ¬ ∃ n, IsInt32Text value n := by
    rw [createConsulService_error_of_port]
    constructor
    · rintro ⟨value, hv, herr⟩
      exact ⟨value, hv, (ParseInt32_error_iff value).1 herr⟩
    · rintro ⟨value, hv, hnot⟩
      exact ⟨value, hv, (ParseInt32_error_iff value).2 hnot⟩
  refine ⟨hiff, ?_, ?_, ?_⟩
  · intro hnot
    rcases createConsulService_total env.cfg svc address port with herr | hok
    · exact absurd (hiff.1 herr) hnot
    · exact hok
  · intro value n e hv hn he
    obtain ⟨healthPort, hp, _, _, _, _, hhttp, _, htcp⟩ :=
      createConsulService_ok env.cfg svc address port e he
    have hpn : healthPort = n := by
      unfold IsHealthPort at hp
      rw [hv] at hp
      simp only [] at hp
      rw [(ParseInt32_ok_iff value n).2 hn] at hp
      injection hp with hp
      exact hp.symm
    subst hpn
    refine ⟨?_, hhttp, htcp⟩
    unfold IsHealthPort
    rw [hv]
    exact (ParseInt32_ok_iff value healthPort).2 hn
  · intro err herr w
    have hall : ∀ a p e, createConsulService env.cfg svc a p = .ok e → False := by
      intro a p e he
      obtain ⟨err1, herr1⟩ := (createConsulService_error_of_port env.cfg svc a p).2
        ((createConsulService_error_of_port env.cfg svc address port).1 ⟨err, herr⟩)
      rw [he] at herr1
      exact absurd herr1 (by simp)
    have hworld : (eventAddFunc env svc w).2 = w := by
      rw [eventAddFunc_world]
      exact registerAll_skip env svc _ _ w (fun a _ p _ e he => (hall a p e he).elim)
    refine ⟨registerOne_skip env svc address w port (fun e he => (hall _ _ e he).elim),
      hworld, fun ha => ?_⟩
    exact Prod.ext (eventAddFunc_error_none env svc w address ha) hworld

/-- The annotation `http` is not a number: no entry is built, and the register path leaves the
empty state as it is and returns no error. The annotation `+8080` of `exampleApi` is a number
and is the health port of its check. -/
theorem createConsulService_error_iff_witness :
    (∃ err, createConsulService exampleEnv.cfg exampleBadPort "10.0.0.5" 30080 = .error err)
      ∧ registerOne exampleEnv exampleBadPort "10.0.0.5" emptyWorld 30080 = emptyWorld
      ∧ eventAddFunc exampleEnv exampleBadPort emptyWorld = (none, emptyWorld)
      ∧ IsInt32Text "+8080" 8080
      ∧ IsHealthPort exampleApi 31000 8080 := by
  have hbad : ¬ ∃ n, IsInt32Text "http" n := (ParseInt32_error_iff "http").1 ⟨_, rfl⟩
  have hgood : IsInt32Text "+8080" 8080 := (ParseInt32_ok_iff "+8080" 8080).1 rfl
  have herror := (createConsulService_error_iff exampleEnv exampleBadPort "10.0.0.5" 30080).1.2
    ⟨"http", rfl, hbad⟩
  obtain ⟨err, herr⟩ := herror
  have hskip := (createConsulService_error_iff exampleEnv exampleBadPort "10.0.0.5"
    30080).2.2.2 err herr emptyWorld
  have hport := (createConsulService_error_iff exampleEnv exampleApi "192.0.2.7" 31000).2.2.1
    "+8080" 8080 exampleApiEntry rfl hgood rfl
  exact ⟨⟨err, herr⟩, hskip.1, hskip.2.2 (by decide), hgood, hport.1⟩

/-! ### Default health check -/

/-- C13, amended: without a `health.path` annotation, a `health.ttl` annotation and a
non-empty `health.tcp` annotation, the check is the HTTP check on `/` at the health host and
the health port (the `health.host` and `health.port` annotations when present, else the target
address and port, so that without them the URL is built from the target address and
port), TCP and TTL are empty, and interval and timeout are `10s` and `90s` unless their
annotations are present, whose values then get an `s` appended. -/
theorem createConsulService_default_check (cfg : Config) (svc : Service) (address : String)
    (port : Int) (e : AgentServiceRegistration)
    (hpath : mapGet svc.Annotations ConsulRegisterServiceHealthCheckPathAnnotation = none)
    (httl : mapGet svc.Annotations ConsulRegisterServiceHealthTTLAnnotation = none)
    (htcp : mapGet svc.Annotations ConsulRegisterServiceHealthTCPAnnotation = none
      ∨ mapGet svc.Annotations ConsulRegisterServiceHealthTCPAnnotation = some "")
    (h : createConsulService cfg svc address port = .ok e) :
    ∃ healthPort : Int, IsHealthPort svc port healthPort
      ∧ e.Check.HTTP
          = "http://" ++ healthHostOf svc address ++ ":" ++ formatInt healthPort ++ "/"
      ∧ e.Check.TCP = "" ∧ e.Check.TTL = ""
      ∧ (mapGet svc.Annotations ConsulRegisterServiceHealthHostAnnotation = none →
          mapGet svc.Annotations ConsulRegisterServiceHealthPortAnnotation = none →
          e.Check.HTTP = "http://" ++ address ++ ":" ++ formatInt port ++ "/")
      ∧ e.Check.Interval =
        (match mapGet svc.Annotations ConsulRegisterServiceHealthIntervalAnnotation with
        | some value => value ++ "s"
        | none => "10s")
      ∧ e.Check.Timeout =
        (match mapGet svc.Annotations ConsulRegisterServiceHealthTimeoutAnnotation with
        | some value => value ++ "s"
        | none => "90s") := by
  obtain ⟨healthPort, hp, _, _, _, _, hhttp, httlF, htcpF⟩ :=
    createConsulService_ok cfg svc address port e h
  obtain ⟨hinterval, htimeout⟩ := createConsulService_timing cfg svc address port e h
  have hurl : e.Check.HTTP
      = "http://" ++ healthHostOf svc address ++ ":" ++ formatInt healthPort ++ "/" := by
    rw [hhttp]
    rcases htcp with htcp | htcp
    · simp [hpath, httl, htcp]
    · simp [hpath, httl, htcp]
  refine ⟨healthPort, hp, hurl, ?_, ?_, ?_, hinterval, htimeout⟩
  · rw [htcpF]
    rcases htcp with htcp | htcp
    · simp [hpath, httl, htcp]
    · simp [hpath, httl, htcp]
  · rw [httlF]
    simp [hpath, httl]
  · intro hhost hport
    rw [hurl]
    unfold IsHealthPort at hp
    rw [hport] at hp
    simp only [] at hp
    rw [hp]
    simp only [healthHostOf, hhost]

/-- The example of the specification has the default check at the target address and port
with `10s` and `90s`; `exampleTimed` has its interval and timeout annotations applied. -/
theorem createConsulService_default_check_witness :
    exampleWebEntry.Check.HTTP = "http://10.0.0.5:30080/"
      ∧ exampleWebEntry.Check.Interval = "10s" ∧ exampleWebEntry.Check.Timeout = "90s"
      ∧ createConsulService exampleCfg exampleTimed "10.0.0.5" 30080 = .ok exampleTimedEntry
      ∧ exampleTimedEntry.Check.HTTP = "http://" ++ "10.0.0.5" ++ ":" ++ formatInt 30080 ++ "/"
      ∧ exampleTimedEntry.Check.Interval = "30" ++ "s"
      ∧ exampleTimedEntry.Check.Timeout = "5" ++ "s" := by
  obtain ⟨_, _, _, _, _, hweb, _, _⟩ :=
    createConsulService_default_check exampleCfg exampleWeb "10.0.0.5" 30080 exampleWebEntry
      rfl rfl (Or.inl rfl) rfl
  obtain ⟨_, _, _, _, _, htimed, hinterval, htimeout⟩ :=
    createConsulService_default_check exampleCfg exampleTimed "10.0.0.5" 30080
      exampleTimedEntry rfl rfl (Or.inr rfl) rfl
  exact ⟨by decide, by decide, by decide, rfl, htimed rfl rfl, hinterval, htimeout⟩

/-- C13 as stated fails when the workload has a `health.host` annotation: `exampleProbeHost`
has no path, TTL or TCP annotation, the target is `10.0.0.5` and `30080`, and the URL of the
check is `http://probe.local:30080/`, not `http://10.0.0.5:30080/`. -/
theorem createConsulService_default_uses_health_host :
    mapGet exampleProbeHost.Annotations ConsulRegisterServiceHealthCheckPathAnnotation = none
      ∧ mapGet exampleProbeHost.Annotations ConsulRegisterServiceHealthTTLAnnotation = none
      ∧ mapGet exampleProbeHost.Annotations ConsulRegisterServiceHealthTCPAnnotation = none
      ∧ createConsulService exampleCfg exampleProbeHost "10.0.0.5" 30080
          = .ok exampleProbeHostEntry
      ∧ exampleProbeHostEntry.Check.HTTP = "http://probe.local:30080/"
      ∧ exampleProbeHostEntry.Check.HTTP
          ≠ "http://" ++ "10.0.0.5" ++ ":" ++ formatInt 30080 ++ "/" :=
  ⟨by decide, by decide, by decide, rfl, by decide, by decide⟩

end KubeConsulRegister
